import Mathlib

/-!
configLoader: recordset persistence and configuration overlay

A shallow embedding of `src/index.js` (class `ConfigLoader`) and the properties of it
that the specification states.

* JavaScript values held in the `general` mappings are embedded as the JSON-like type
  `Val`; a JavaScript object is an association list of its own properties in key
  insertion order, and structural equality of values is equality of these
  representations. A property read `o[k]` goes through the prototype chain
  (`readProp`, `State.readConfigs`): the members of `Object.prototype` are visible
  under their names in every object.
* The mutable fields of the `ConfigLoader` instance, the storage folder and the
  recorder collaborator are one explicit `State`; every method is a function on states.
  Calls to collaborators and to storage are appended to `State.trace`; `debug` and
  `logger.info` lines are left out. File-system calls that the environment makes fail
  are listed in `State.faults`.
* Libraries that are not part of the repository (`crypto`, `mime-types`, `Buffer`) are
  the fields of `Env`. The `util` collaborator (`extendDeep`, `compareObject`,
  `isEmptyObject`) is not in the source tree and is modelled from the specification.
* A manifest in storage is kept in decoded form; the JSON codec is the identity on the
  embedded data.
* `saveConfig` works on the exchange objects that the recorder hands out: what it
  changes in their `req`, `res` and `general` parts is changed for the recorder too.
* Embedded: `handleRecord`, `handleRecordOrReplay`, `handleRecordEnd`, `loadConfig`,
  `saveConfig`, `_defaultExt`. The `LOAD-ALL` and `RECORD-SET` handlers,
  `handleRequest` and `defaultPluginConfig` play no part in the properties below and
  are left out.
-/

namespace ConfigLoader

/-! ## Values -/

/-- JSON-like JavaScript values, as they appear in a manifest (`config.json`) and in the
per-plugin configuration mappings. Objects keep their properties in insertion order. -/
inductive Val where
  | null
  | bool (b : Bool)
  | num (n : Int)
  | str (s : String)
  | arr (items : List Val)
  | obj (fields : List (String × Val))

/-- A JavaScript object: its own properties in insertion order. -/
abbrev Obj := List (String × Val)

mutual
/-- Decision procedure for equality of values. -/
def Val.decEq : (a b : Val) → Decidable (a = b)
  | .null, .null => isTrue rfl
  | .bool x, .bool y =>
    if h : x = y then isTrue (congrArg Val.bool h)
    else isFalse (fun e => h (Val.bool.inj e))
  | .num x, .num y =>
    if h : x = y then isTrue (congrArg Val.num h)
    else isFalse (fun e => h (Val.num.inj e))
  | .str x, .str y =>
    if h : x = y then isTrue (congrArg Val.str h)
    else isFalse (fun e => h (Val.str.inj e))
  | .arr x, .arr y =>
    match Val.decEqItems x y with
    | isTrue h => isTrue (congrArg Val.arr h)
    | isFalse h => isFalse (fun e => h (Val.arr.inj e))
  | .obj x, .obj y =>
    match Val.decEqFields x y with
    | isTrue h => isTrue (congrArg Val.obj h)
    | isFalse h => isFalse (fun e => h (Val.obj.inj e))
  | .null, .bool _ | .null, .num _ | .null, .str _ | .null, .arr _ | .null, .obj _ =>
    isFalse (fun e => Val.noConfusion e)
  | .bool _, .null | .bool _, .num _ | .bool _, .str _ | .bool _, .arr _ | .bool _, .obj _ =>
    isFalse (fun e => Val.noConfusion e)
  | .num _, .null | .num _, .bool _ | .num _, .str _ | .num _, .arr _ | .num _, .obj _ =>
    isFalse (fun e => Val.noConfusion e)
  | .str _, .null | .str _, .bool _ | .str _, .num _ | .str _, .arr _ | .str _, .obj _ =>
    isFalse (fun e => Val.noConfusion e)
  | .arr _, .null | .arr _, .bool _ | .arr _, .num _ | .arr _, .str _ | .arr _, .obj _ =>
    isFalse (fun e => Val.noConfusion e)
  | .obj _, .null | .obj _, .bool _ | .obj _, .num _ | .obj _, .str _ | .obj _, .arr _ =>
    isFalse (fun e => Val.noConfusion e)
/-- Decision procedure for equality of arrays of values. -/
def Val.decEqItems : (a b : List Val) → Decidable (a = b)
  | [], [] => isTrue rfl
  | [], _ :: _ => isFalse (fun e => List.noConfusion e)
  | _ :: _, [] => isFalse (fun e => List.noConfusion e)
  | x :: xs, y :: ys =>
    match Val.decEq x y, Val.decEqItems xs ys with
    | isTrue h, isTrue t => isTrue (by rw [h, t])
    | isFalse h, _ => isFalse (fun e => h (List.cons.inj e).1)
    | _, isFalse t => isFalse (fun e => t (List.cons.inj e).2)
/-- Decision procedure for equality of property lists. -/
def Val.decEqFields : (a b : List (String × Val)) → Decidable (a = b)
  | [], [] => isTrue rfl
  | [], _ :: _ => isFalse (fun e => List.noConfusion e)
  | _ :: _, [] => isFalse (fun e => List.noConfusion e)
  | (k, x) :: xs, (l, y) :: ys =>
    if hk : k = l then
      match Val.decEq x y, Val.decEqFields xs ys with
      | isTrue h, isTrue t => isTrue (by rw [hk, h, t])
      | isFalse h, _ => isFalse (fun e => h (Prod.mk.inj (List.cons.inj e).1).2)
      | _, isFalse t => isFalse (fun e => t (List.cons.inj e).2)
    else isFalse (fun e => hk (Prod.mk.inj (List.cons.inj e).1).1)
end

instance : DecidableEq Val := Val.decEq

/-- JavaScript truthiness of a value: `null`, `false`, `0` and `""` are falsy, every
object and every array is truthy. -/
def Val.truthy : Val → Bool
  | .null => false
  | .bool b => b
  | .num n => n != 0
  | .str s => s != ""
  | .arr _ => true
  | .obj _ => true

/-- The names of the members that every plain object inherits from
`Object.prototype`. -/
def objectPrototypeNames : List String :=
  ["constructor", "__defineGetter__", "__defineSetter__", "hasOwnProperty",
   "__lookupGetter__", "__lookupSetter__", "isPrototypeOf", "propertyIsEnumerable",
   "toString", "valueOf", "__proto__", "toLocaleString"]

/-- What a property read `o[k]` on a plain object gives: `undefined`, the value of an own
property, or a member inherited from `Object.prototype` (a function; for `__proto__`
the prototype object itself). -/
inductive PropRead where
  | undefined
  | own (v : Val)
  | inherited (name : String)
  deriving DecidableEq

/-- JavaScript truthiness of the result of a property read: `undefined` is falsy, an
inherited member is a function or an object and is truthy. -/
def PropRead.truthy : PropRead → Bool
  | .undefined => false
  | .own v => v.truthy
  | .inherited _ => true

/-- The own property `k` of an object, `none` when the object has no such own
property. -/
def ownProp (o : Obj) (k : String) : Option Val :=
  o.lookup k

/-- Property read `o[k]` on a plain object: an own property first, then the members of
`Object.prototype`. -/
def readProp (o : Obj) (k : String) : PropRead :=
  match ownProp o k with
  | some v => .own v
  | none => if k ∈ objectPrototypeNames then .inherited k else .undefined

/-- Property write `o[k] = v` for a name that is an own property or is not inherited:
an existing property keeps its place, a new one is added after the others. -/
def setProp : Obj → String → Val → Obj
  | [], k, v => [(k, v)]
  | (k', v') :: rest, k, v =>
    if k' = k then (k, v) :: rest else (k', v') :: setProp rest k v

/-- Property removal `delete o[k]`; only own properties are removed. -/
def deleteProp (o : Obj) (k : String) : Obj :=
  o.filter (fun kv => kv.1 != k)

/-- The own property names of an object, `Object.keys(o)`. -/
def objectKeys (o : Obj) : List String :=
  o.map Prod.fst

/-- A plain object whose property names are pairwise distinct, as every JavaScript
object's are. -/
def Val.isPlainObject : Val → Bool
  | .obj fields => decide (objectKeys fields).Nodup
  | _ => false

/-! ## The `util` collaborator -/

/-- The own enumerable properties of a value: the fields of an object, the indexed
items of an array, the indexed characters of a string; other primitives have none. -/
def ownProps : Val → List (String × Val)
  | .obj fields => fields
  | .arr items => items.enum.map (fun p => (toString p.1, p.2))
  | .str s => s.toList.enum.map (fun p => (toString p.1, Val.str (String.singleton p.2)))
  | _ => []

mutual
/-- Modelled from the spec: `util.extendDeep(destination, source)`, absent from the
source tree, "deep-copies" the source into the destination (§4.5, §6): every property of
the source is written to the destination, in the order of the source. -/
def extendDeepFields (destination : Obj) : List (String × Val) → Obj
  | [] => destination
  | (k, v) :: rest =>
    extendDeepFields (setProp destination k (extendDeepValue (readProp destination k) v)) rest
/-- Modelled from the spec: the value that `util.extendDeep` writes for one property of
the source: where the source and the destination both hold a plain object the two are
merged property by property, otherwise the source's value is copied. -/
def extendDeepValue (old : PropRead) : Val → Val
  | .obj inner =>
    match old with
    | .own (.obj d) => .obj (extendDeepFields d inner)
    | _ => .obj inner
  | v => v
end

/-- Modelled from the spec: `util.extendDeep` applied to the result of a property read;
`undefined` and the inherited functions have no property to copy. -/
def extendDeep (destination : Obj) (source : PropRead) : Obj :=
  match source with
  | .own v => extendDeepFields destination (ownProps v)
  | _ => destination

/-- Modelled from the spec: `util.compareObject(a, b)`, absent from the source tree, is
"deep structural equality, not identity" (§3), here on the results of two property
reads: two values are compared structurally, `undefined` equals `undefined` only, an
inherited member equals itself only. -/
def compareObject (a b : PropRead) : Bool :=
  decide (a = b)

/-- Modelled from the spec: `util.isEmptyObject(o)`, absent from the source tree, tells
whether the mapping "becomes empty" (§4.5); an absent mapping has no property. -/
def isEmptyObject : Option Obj → Bool
  | none => true
  | some fields => fields.isEmpty

/-! ## Data model -/

/-- A raw request body: text in a manifest, a `Buffer` in memory. -/
inductive RawBody where
  | text (s : String)
  | buffer (bytes : List Nat)
  deriving DecidableEq

/-- The `req` part of an exchange. -/
structure Req where
  method : String
  url : String
  headers : List (String × String)
  rawBody : Option RawBody
  deriving DecidableEq

/-- The `res` part of an exchange: the body is held inline (`body`) or in a blob named
by `file`. -/
structure Res where
  status : Nat
  headers : List (String × String)
  body : Option (List Nat)
  file : Option String
  deriving DecidableEq

/-- One captured request/response pair; `general` holds the per-exchange plugin
configuration (the "overrides" of the specification) and may be absent. -/
structure Exchange where
  req : Req
  res : Res
  general : Option Obj
  deriving DecidableEq

/-- A recordset as held in memory and in a manifest: the recordset-wide plugin
configuration and the ordered exchanges. -/
structure Config where
  general : Obj
  requests : List Exchange
  deriving DecidableEq

/-! ## Configuration overlay -/

/-- One round of the `forEach` of `loadConfig` (lines 259-264): when the read
`request.general[plugin]` is falsy, the entry becomes a fresh object extended with the
default. The read is falsy for an own entry with a falsy value, and for a missing entry
whose name is not inherited from `Object.prototype`. -/
def expandPlugin (defaults : Obj) (general : Obj) (plugin : String) : Obj :=
  if !(readProp general plugin).truthy then
    setProp general plugin (.obj (extendDeep [] (readProp defaults plugin)))
  else general

/-- The fill loop of `loadConfig` over `Object.keys` of the recordset's `general`. -/
def expandGeneral (defaults : Obj) (general : Obj) : Obj :=
  (objectKeys defaults).foldl (expandPlugin defaults) general

/-- The expand step of `loadConfig` (lines 255-267) on one exchange: an absent
`general` is first replaced by an empty object. -/
def expand (defaults : Obj) (request : Exchange) : Exchange :=
  { request with general := some (expandGeneral defaults (request.general.getD [])) }

/-- One round of the `forEach` of `saveConfig` (lines 350-354): the entry of a plugin is
deleted when the read `newReq.general[plugin]` compares equal to the default. -/
def compressPlugin (defaults : Obj) (general : Obj) (plugin : String) : Obj :=
  if compareObject (readProp defaults plugin) (readProp general plugin) then
    deleteProp general plugin
  else general

/-- The `forEach` of `saveConfig` (lines 350-354) on a `general` object. -/
def compressLoop (defaults : Obj) (general : Obj) : Obj :=
  (objectKeys defaults).foldl (compressPlugin defaults) general

/-- Lines 350-358 of `saveConfig` on the `general` of one exchange. The result is
`none` when the block raises: reading `newReq.general[plugin]` of an absent `general` is
a `TypeError`, caught by the surrounding `try`. Otherwise the result is the new
`general` field, absent when it ended up empty. When `general` is absent and there is no
default plugin, the loop body never runs and `delete newReq.general` leaves the field
absent. -/
def compressGeneral (defaults : Obj) : Option Obj → Option (Option Obj)
  | none =>
    match objectKeys defaults with
    | [] => some none
    | _ :: _ => none
  | some general =>
    if isEmptyObject (some (compressLoop defaults general)) then some none
    else some (some (compressLoop defaults general))

/-- The compress step of `saveConfig` (lines 348-358) on one exchange; when the block
raises the exchange is left as it was. -/
def compress (defaults : Obj) (newReq : Exchange) : Exchange :=
  match compressGeneral defaults newReq.general with
  | some general => { newReq with general := general }
  | none => newReq

/-! ## Libraries, storage and collaborators -/

/-- The library functions the loader calls; they are not code of the repository.
`md5hex` is `crypto.createHash('md5').update(b).digest('hex')`, `mimeExtension` is
`mime.extension` (`none` stands for its result `false`, an absent argument for
`undefined`), `bufferFrom` and `bufferToString` are `Buffer.from` on a string and
`Buffer.prototype.toString`. -/
structure Env where
  md5hex : List Nat → String
  mimeExtension : Option String → Option String
  bufferFrom : String → List Nat
  bufferToString : List Nat → String

/-- The content of `<folder>/config.json` when the file exists: content that cannot be
read or that `JSON.parse` rejects (line 232 raises), or a decoded manifest. -/
inductive ManifestFile where
  | malformed
  | ok (config : Config)
  deriving DecidableEq

/-- What a slot of `this.configs` refers to. JavaScript objects are shared by
reference: `saveConfig` and the record fallback store `this.defaultConfig` itself in the
cache, so such a slot shows whatever `this.defaultConfig` holds at the time it is read.
`placeholder` is the `{}` that `loadConfig` stores before it decodes the manifest. -/
inductive CacheEntry where
  | placeholder
  | loaded (config : Config)
  | defaultRef
  deriving DecidableEq

/-- Calls to the collaborators and to storage, in the order they happen. -/
inductive Event where
  | recorderStart (name : String)
  | recorderStop (name : String)
  | recorderReplay (name : String)
  | matcherSetRequests (name : String) (requests : List Exchange)
  | emitNewSet (recordset : String) (requests : List Exchange)
  | existsSync (name : String)
  | readManifest (name : String)
  | readBlob (name : String) (file : String)
  | writeBlob (name : String) (file : String)
  | writeManifest (name : String)
  | ignoreQuery (message : Option String)
  | loggerError
  deriving DecidableEq

/-- File-system calls of `saveConfig` that the environment makes fail: creating the
folder of a recordset that has none yet (`fs.mkdirSync`), writing a blob, writing the
manifest (`fs.writeFileSync`). -/
inductive Fault where
  | mkdir (name : String)
  | writeBlob (name : String) (file : String)
  | writeManifest (name : String)
  deriving DecidableEq

/-- Recorder mode constant `MODE_RECORD`. -/
def MODE_RECORD : Nat := 1

/-- Recorder mode constant `MODE_REPLAY`. -/
def MODE_REPLAY : Nat := 2

/-- The fields of a `ConfigLoader` instance together with the world it acts on:
`configs` holds the own properties of `this.configs` and `configsProto` its prototype
when an assignment to `this.configs['__proto__']` has replaced `Object.prototype`;
`storage` maps a recordset folder to its `config.json`, `blobs` maps a folder and a file
name to the file's bytes, `faults` lists the file-system calls that fail, `matcher` is
the recorder's list of exchanges per recordset (`matcherGetRequests` /
`matcherSetRequests`), `trace` records the calls made. -/
structure State where
  currentFile : Option String
  currentMode : Option Nat
  configs : List (String × CacheEntry)
  configsProto : Option CacheEntry
  defaultConfig : Config
  storage : List (String × ManifestFile)
  blobs : List ((String × String) × List Nat)
  faults : List Fault
  matcher : List (String × List Exchange)
  trace : List Event
  deriving DecidableEq

/-- Assignment `m[k] = v` on a mapping kept as an association list. -/
def assign {κ α : Type} [DecidableEq κ] : List (κ × α) → κ → α → List (κ × α)
  | [], k, v => [(k, v)]
  | (k', v') :: rest, k, v =>
    if k' = k then (k, v) :: rest else (k', v') :: assign rest k v

/-- Appends events to the trace. -/
def State.log (s : State) (events : List Event) : State :=
  { s with trace := s.trace ++ events }

/-- The state right after the constructor (lines 89-95), over a given storage in which
no file-system call fails. -/
def initialState (storage : List (String × ManifestFile))
    (blobs : List ((String × String) × List Nat)) : State :=
  { currentFile := none
    currentMode := none
    configs := []
    configsProto := none
    defaultConfig := { general := [], requests := [] }
    storage := storage
    blobs := blobs
    faults := []
    matcher := []
    trace := [] }

/-- The object a cache slot refers to; `none` for the bare `{}`, which has neither
`general` nor `requests`. -/
def State.deref (s : State) : CacheEntry → Option Config
  | .placeholder => none
  | .loaded config => some config
  | .defaultRef => some s.defaultConfig

/-- What the read `this.configs[name]` finds: nothing (`undefined`); a recordset object,
as an own property or as the replaced prototype read through `__proto__`; the `general`
object or the `requests` array inherited from a replaced prototype; or a member of
`Object.prototype`. -/
inductive Slot where
  | missing
  | entry (e : CacheEntry)
  | general (g : Obj)
  | requests (list : List Exchange)
  | builtin
  deriving DecidableEq

/-- The part of the read `this.configs[name]` that looks at `Object.prototype`. -/
def builtinSlot (name : String) : Slot :=
  if name ∈ objectPrototypeNames then .builtin else .missing

/-- The read `this.configs[name]`: own properties first, then the prototype chain.
`this.configs` never has an own property `__proto__` (see `State.writeConfigs`); that
name reads the prototype itself. -/
def State.readConfigs (s : State) (name : String) : Slot :=
  if name = "__proto__" then
    match s.configsProto with
    | some proto => .entry proto
    | none => .builtin
  else
    match s.configs.lookup name with
    | some e => .entry e
    | none =>
      match s.configsProto.bind s.deref with
      | some config =>
        if name = "general" then .general config.general
        else if name = "requests" then .requests config.requests
        else builtinSlot name
      | none => builtinSlot name

/-- The assignment `this.configs[name] = object`: it makes an own property, except under
the name `__proto__`, where the setter inherited from `Object.prototype` replaces the
prototype of `this.configs`. -/
def State.writeConfigs (s : State) (name : String) (e : CacheEntry) : State :=
  if name = "__proto__" then { s with configsProto := some e }
  else { s with configs := assign s.configs name e }

/-- The number of UTF-16 code units of a string, its JavaScript `length`. -/
def utf16Length (t : String) : Nat :=
  (t.toList.map (fun c => if c.toNat < 65536 then 1 else 2)).sum

/-- What `loadConfig` gives back: `false`, a number of exchanges, another value (`none`
for `undefined`), or a raised error. -/
inductive LoadResult where
  | notFound
  | count (n : Nat)
  | value (v : Option Val)
  | raised
  deriving DecidableEq

/-- JavaScript truthiness of a result of `loadConfig` that was returned. -/
def LoadResult.truthy : LoadResult → Bool
  | .count n => n != 0
  | .value (some v) => v.truthy
  | _ => false

/-- The read `v.length` on a value: the length of an array or of a string, the own
property `length` of an object, `undefined` on a boolean or a number, a `TypeError` on
`null`. -/
def lengthOf : Val → LoadResult
  | .null => .raised
  | .arr items => .count items.length
  | .str t => .count (utf16Length t)
  | .obj fields =>
    match readProp fields "length" with
    | .own w => .value (some w)
    | _ => .value none
  | _ => .value none

/-- The expression `this.configs[name].requests.length` for what the read
`this.configs[name]` found. A recordset object gives the number of its exchanges; the
bare `{}`, a member of `Object.prototype` and an array have no `requests`, and reading
`length` of `undefined` is a `TypeError`. -/
def State.requestsLength (s : State) : Slot → LoadResult
  | .missing => .raised
  | .entry e =>
    match s.deref e with
    | some config => .count config.requests.length
    | none => .raised
  | .general g =>
    match readProp g "requests" with
    | .own v => lengthOf v
    | _ => .raised
  | .requests _ => .raised
  | .builtin => .raised

/-- The recorder's `matcherGetRequests(name)`: the exchanges it holds for the
recordset, none held being the empty list. -/
def State.matcherGetRequests (s : State) (name : String) : List Exchange :=
  (s.matcher.lookup name).getD []

/-- The recorder captures one more exchange for a recordset. This is a step of the
capture collaborator, not of the loader. -/
def State.capture (s : State) (name : String) (x : Exchange) : State :=
  { s with matcher := assign s.matcher name (s.matcherGetRequests name ++ [x]) }

/-- Whether `fs.existsSync` finds the folder of a recordset: it holds a manifest or a
blob. -/
def State.folderExists (s : State) (name : String) : Bool :=
  (s.storage.lookup name).isSome || s.blobs.any (fun b => b.1.1 == name)

/-! ## Extension resolver -/

/-- Method `_defaultExt` (lines 382-396). A non-empty string from `mime.extension` is
returned as it is; otherwise the `switch` on the content type decides. -/
def _defaultExt (env : Env) (contentType : Option String) : String :=
  match env.mimeExtension contentType with
  | some ext =>
    if ext ≠ "" then ext
    else if contentType = some "application/x-font-ttf" then "ttf" else "unknown"
  | none =>
    if contentType = some "application/x-font-ttf" then "ttf" else "unknown"

/-! ## Loading -/

/-- The conversion of the raw request body in `loadConfig` (lines 236-239): a non-empty
body becomes a `Buffer`. -/
def bufferRawBody (env : Env) : Option RawBody → Option RawBody
  | some (.text t) => if t ≠ "" then some (.buffer (env.bufferFrom t)) else some (.text t)
  | some (.buffer b) => some (.buffer b)
  | none => none

/-- The first `map` of `loadConfig` (lines 233-249) on one exchange: the raw body is
converted; a response with a non-empty `file` gets the blob's bytes as body, one with
neither `file` nor `body` gets the empty body. The result is `none` when
`fs.readFileSync` raises because the blob is missing. The events are the reads made. -/
def loadRequest (env : Env) (blobs : List ((String × String) × List Nat))
    (folderName : String) (request : Exchange) : List Event × Option Exchange :=
  let req := { request.req with rawBody := bufferRawBody env request.req.rawBody }
  match request.res.file with
  | some file =>
    if file ≠ "" then
      match blobs.lookup (folderName, file) with
      | some bytes =>
        ([.readBlob folderName file],
          some { request with req := req, res := { request.res with body := some bytes } })
      | none => ([.readBlob folderName file], none)
    else if request.res.body = none then
      ([], some { request with req := req, res := { request.res with body := some [] } })
    else ([], some { request with req := req })
  | none =>
    if request.res.body = none then
      ([], some { request with req := req, res := { request.res with body := some [] } })
    else ([], some { request with req := req })

/-- The first `map` of `loadConfig` over all exchanges, in order; it stops at the first
exchange that raises. -/
def loadRequests (env : Env) (blobs : List ((String × String) × List Nat))
    (folderName : String) : List Exchange → List Event × Option (List Exchange)
  | [] => ([], some [])
  | request :: rest =>
    match loadRequest env blobs folderName request with
    | (events, none) => (events, none)
    | (events, some newReq) =>
      match loadRequests env blobs folderName rest with
      | (events', none) => (events ++ events', none)
      | (events', some newReqs) => (events ++ events', some (newReq :: newReqs))

/-- Method `loadConfig` (lines 214-280). The cache test of line 226 is the truthiness of
the read `this.configs[folderName]`: whatever the read finds is an object or a function
and is truthy, so only a name that is found nowhere goes on to read the manifest. -/
def loadConfig (env : Env) (s : State) (folderName : String) : State × LoadResult :=
  let s := s.log [.existsSync folderName]
  match s.storage.lookup folderName with
  | none => (s, .notFound)
  | some file =>
    match s.readConfigs folderName with
    | .missing =>
      let s := s.writeConfigs folderName .placeholder
      let s := s.log [.readManifest folderName]
      match file with
      | .malformed => (s, .raised)
      | .ok configJSON =>
        match loadRequests env s.blobs folderName configJSON.requests with
        | (events, none) => (s.log events, .raised)
        | (events, some requests) =>
          let s := s.log events
          let requestsWithConfig := requests.map (expand configJSON.general)
          let s := s.writeConfigs folderName
            (.loaded { general := configJSON.general, requests := requestsWithConfig })
          let s := s.log [.emitNewSet folderName requestsWithConfig,
            .matcherSetRequests folderName requestsWithConfig]
          let s := { s with matcher := assign s.matcher folderName requestsWithConfig }
          (s, .count requestsWithConfig.length)
    | slot => (s, s.requestsLength slot)

/-! ## Saving -/

/-- The blob file name that `saveConfig` computes for an exchange at position `idx`
(lines 330-339): the MD5 digest of the body, or the position when hashing raises because
there is no body to hash, then a dot and the resolved extension. -/
def blobFileName (env : Env) (idx : Nat) (request : Exchange) : String :=
  let hashFile :=
    match request.res.body with
    | some body => env.md5hex body
    | none => toString idx
  hashFile ++ "." ++ _defaultExt env (request.res.headers.lookup "content-type")

/-- The normalisation of the raw request body in `saveConfig` (lines 359-361). -/
def stringifyRawBody (env : Env) : Option RawBody → Option RawBody
  | some (.text t) => some (.text t)
  | some (.buffer b) => if b ≠ [] then some (.text (env.bufferToString b)) else some (.buffer b)
  | none => none

/-- What one round of the `map` of `saveConfig` yields: the events, the blob storage,
`newReq` (the exchange that goes into the saved list) and `request` (the recorder's
exchange after the round). `newReq` is a shallow copy, so the `req`, `res` and
`general` objects are shared: what the round changes in them is changed in the
recorder's exchange too, while `delete newReq.general` removes the field of the copy
only. -/
structure SavedRequest where
  events : List Event
  blobs : List ((String × String) × List Nat)
  newReq : Exchange
  request : Exchange

/-- The body of the `map` of `saveConfig` (lines 327-368) on the exchange at position
`idx`. In the second `try`, `res.file` is set before the blob is written; the write
raises when there is no body or when the environment makes it fail, and then the body
is not deleted. In the third `try`, the raw body is normalised only when the lines
before it did not raise. -/
def saveRequest (env : Env) (defaults : Obj) (faults : List Fault) (folderName : String)
    (blobs : List ((String × String) × List Nat)) (idx : Nat) (request : Exchange) :
    SavedRequest :=
  let file := blobFileName env idx request
  let step2 : List Event × List ((String × String) × List Nat) × Res :=
    match request.res.body with
    | some body =>
      if Fault.writeBlob folderName file ∈ faults then
        ([.loggerError], blobs, { request.res with file := some file })
      else
        ([.writeBlob folderName file], assign blobs (folderName, file) body,
          { request.res with file := some file, body := none })
    | none => ([.loggerError], blobs, { request.res with file := some file })
  match compressGeneral defaults request.general with
  | some general =>
    let req := { request.req with rawBody := stringifyRawBody env request.req.rawBody }
    { events := step2.1
      blobs := step2.2.1
      newReq := { req := req, res := step2.2.2, general := general }
      request := { req := req, res := step2.2.2,
                   general := request.general.map (compressLoop defaults) } }
  | none =>
    { events := step2.1 ++ [.loggerError]
      blobs := step2.2.1
      newReq := { request with res := step2.2.2 }
      request := { request with res := step2.2.2 } }

/-- What the `map` of `saveConfig` yields over a list of exchanges: the events, the blob
storage, the saved list and the recorder's exchanges after the rounds. -/
structure SavedRequests where
  events : List Event
  blobs : List ((String × String) × List Nat)
  saved : List Exchange
  requests : List Exchange

/-- The `map` of `saveConfig` over the exchanges, in order, from position `idx` on. -/
def saveRequests (env : Env) (defaults : Obj) (faults : List Fault) (folderName : String) :
    List ((String × String) × List Nat) → Nat → List Exchange → SavedRequests
  | blobs, _, [] => { events := [], blobs := blobs, saved := [], requests := [] }
  | blobs, idx, request :: rest =>
    let first := saveRequest env defaults faults folderName blobs idx request
    let others := saveRequests env defaults faults folderName first.blobs (idx + 1) rest
    { events := first.events ++ others.events
      blobs := others.blobs
      saved := first.newReq :: others.saved
      requests := first.request :: others.requests }

/-- The recorder's exchanges of a recordset after `saveConfig` has worked on them; a
recordset for which the recorder holds nothing stays so. -/
def replaceRequests (matcher : List (String × List Exchange)) (name : String)
    (requests : List Exchange) : List (String × List Exchange) :=
  matcher.map (fun entry => if entry.1 = name then (entry.1, requests) else entry)

/-- Method `saveConfig` (lines 308-374). `newConfig` is `this.defaultConfig` itself
(`_defaultConfig`, lines 407-409, hands out the object, not a copy), so the assignment
to `newConfig.requests` writes into `this.defaultConfig` and the cache slot refers to
that same object. Everything runs inside one `try`: when the folder has to be created
and `fs.mkdirSync` raises, the `map` never runs and nothing is written; when writing
the manifest raises, the saved list stays in memory only. Both are logged. -/
def saveConfig (env : Env) (s : State) (folderName : String) : State :=
  let requests := s.matcherGetRequests folderName
  let general := s.defaultConfig.general
  let s := { s with defaultConfig := { general := general, requests := requests } }
  let s := s.writeConfigs folderName .defaultRef
  if !s.folderExists folderName && decide (Fault.mkdir folderName ∈ s.faults) then
    s.log [.loggerError]
  else
    let result := saveRequests env general s.faults folderName s.blobs 0 requests
    let newConfig : Config := { general := general, requests := result.saved }
    let s := { s with
      defaultConfig := newConfig
      blobs := result.blobs
      matcher := replaceRequests s.matcher folderName result.requests }
    let s := s.log result.events
    if Fault.writeManifest folderName ∈ s.faults then
      s.log [.loggerError]
    else
      let s := { s with storage := assign s.storage folderName (.ok newConfig) }
      s.log [.writeManifest folderName]

/-! ## Command handlers -/

/-- How a handler ends: it returns, or it raises (`message` is the text of the `Error`
the handler itself builds, `none` for an error raised further down). -/
inductive Outcome where
  | returned
  | raised (message : Option String)
  deriving DecidableEq

mutual
/-- The string that a template literal makes of a value. -/
def Val.toJsString : Val → String
  | .null => "null"
  | .bool b => if b then "true" else "false"
  | .num n => toString n
  | .str t => t
  | .arr items => Val.joinItems items
  | .obj _ => "[object Object]"
/-- The string that `Array.prototype.join` makes of the items of an array: `null` items
count as empty, the items are separated by commas. -/
def Val.joinItems : List Val → String
  | [] => ""
  | [.null] => ""
  | [v] => Val.toJsString v
  | .null :: rest => "," ++ Val.joinItems rest
  | v :: rest => Val.toJsString v ++ "," ++ Val.joinItems rest
end

/-- The text that a template literal makes of what `requests.length` gave. -/
def LoadResult.text : LoadResult → String
  | .count n => toString n
  | .value (some v) => v.toJsString
  | .value none => "undefined"
  | .notFound => "false"
  | .raised => ""

/-- Handler of `RECORD` (lines 98-105). -/
def handleRecord (s : State) (value : String) : State :=
  let s := { s with currentFile := some value }
  s.log [.recorderStart value, .ignoreQuery none]

/-- Handler of `REPLAY-FILE` and `REPLAY-FILE-OR-RECORD` (lines 107-134). -/
def handleRecordOrReplay (env : Env) (s : State) (command : String) (value : String) :
    State × Outcome :=
  let s :=
    match s.currentFile with
    | some current =>
      if s.currentMode = some MODE_RECORD then
        saveConfig env (s.log [.recorderStop current]) current
      else s
    | none => s
  let s := { s with currentFile := some value }
  match loadConfig env s value with
  | (s, .raised) => (s, .raised none)
  | (s, loaded) =>
    if loaded.truthy then
      let s := s.log [.recorderReplay value]
      let s := { s with currentMode := some MODE_REPLAY }
      match s.requestsLength (s.readConfigs value) with
      | .raised => (s, .raised none)
      | length =>
        (s.log [.ignoreQuery (some ("Loaded " ++ length.text ++
          " requests of recordset '" ++ value ++ "'"))], .returned)
    else if command = "REPLAY-FILE-OR-RECORD" then
      let s := s.log [.recorderStart value]
      let s := { s with currentMode := some MODE_RECORD }
      let s := s.writeConfigs value .defaultRef
      (s.log [.ignoreQuery (some ("Beginning recording of recordset '" ++ value ++ "'"))],
        .returned)
    else
      ({ s with currentFile := none, currentMode := none },
        .raised (some ("Config folder '" ++ value ++ "' not found!")))

/-- Handler of `RECORD-END` (lines 136-156). -/
def handleRecordEnd (env : Env) (s : State) : State :=
  match s.currentFile with
  | some current =>
    let s := s.log [.recorderStop current]
    if s.currentMode = some MODE_RECORD then
      let s := saveConfig env s current
      let s := s.log [.ignoreQuery (some ("Saving " ++
        toString (s.matcherGetRequests current).length ++ " requests"))]
      { s with currentFile := none, currentMode := none }
    else s.log [.ignoreQuery none]
  | none => s.log [.ignoreQuery none]

/-- The commands of the dispatcher that drive the record/replay mode. -/
inductive Command where
  | record (value : String)
  | replayFile (value : String)
  | replayFileOrRecord (value : String)
  | recordEnd
  deriving DecidableEq

/-- Dispatch of one command to its handler (constructor, lines 35-67). -/
def dispatch (env : Env) (s : State) : Command → State × Outcome
  | .record value => (handleRecord s value, .returned)
  | .replayFile value => handleRecordOrReplay env s "REPLAY-FILE" value
  | .replayFileOrRecord value => handleRecordOrReplay env s "REPLAY-FILE-OR-RECORD" value
  | .recordEnd => (handleRecordEnd env s, .returned)

/-! ## Reference notions and sample data -/

/-- The normalisation named by the round-trip contract of the specification (§4.5): an
`overrides` field that is present but empty counts as absent. -/
def normalizeOverrides (e : Exchange) : Exchange :=
  if e.general = some [] then { e with general := none } else e

/-- Stand-ins for the library functions, used to run the loader on sample data. The
digest stand-in spells out the bytes, so that it is different for different bodies. -/
def sampleEnv : Env :=
  { md5hex := fun body => String.join (body.map (fun b => toString b ++ "-"))
    mimeExtension := fun contentType =>
      if contentType = some "text/html" then some "html"
      else if contentType = some "application/json" then some "json"
      else none
    bufferFrom := fun t => t.toList.map Char.toNat
    bufferToString := fun b => String.mk (b.map Char.ofNat) }

/-- A sample exchange with an HTML body and the given per-exchange configuration. -/
def sampleExchange (general : Option Obj) : Exchange :=
  { req := { method := "GET", url := "/index.html", headers := [], rawBody := none }
    res := { status := 200, headers := [("content-type", "text/html")],
             body := some [104, 105], file := none }
    general := general }

/-- The blob file name (`res.file`) of the exchange at position `i` in the manifest that
storage holds for a recordset. -/
def State.manifestFile (s : State) (name : String) (i : Nat) : Option String :=
  match s.storage.lookup name with
  | some (.ok config) => (config.requests[i]?).bind (fun x => x.res.file)
  | _ => none

/-- The blob file name (`res.file`) of the exchange at position `i` of the recordset
that the read `this.configs[name]` finds in memory. -/
def State.cachedFile (s : State) (name : String) (i : Nat) : Option String :=
  match s.readConfigs name with
  | .entry e => ((s.deref e).bind (fun config => config.requests[i]?)).bind (fun x => x.res.file)
  | _ => none

/-- Tells the `NEW_SET` notifications for a recordset apart from the other events. -/
def Event.isNewSet (name : String) : Event → Bool
  | .emitNewSet recordset _ => recordset = name
  | _ => false

/-- Sample recordset-wide defaults: one plugin, `speed`, configured by an object. -/
def speedDefaults : Obj :=
  [("speed", .obj [("delay", .num 100)])]

/-- Sample recordset-wide defaults with two plugins, `speed` and `cache`, each
configured by an object. -/
def twoDefaults : Obj :=
  [("speed", .obj [("delay", .num 100)]), ("cache", .obj [("ttl", .num 60)])]

/-- A second sample exchange: another URL, the same body and content type as
`sampleExchange`. -/
def otherExchange : Exchange :=
  { req := { method := "GET", url := "/copy.html", headers := [], rawBody := none }
    res := { status := 200, headers := [("content-type", "text/html")],
             body := some [104, 105], file := none }
    general := some [] }

/-- A sample exchange as a manifest holds it: the body is in a blob. -/
def storedExchange : Exchange :=
  { req := { method := "GET", url := "/index.html", headers := [], rawBody := none }
    res := { status := 200, headers := [("content-type", "text/html")],
             body := none, file := some "104-105-.html" }
    general := none }

/-- Sample storage: recordset `R` holds one exchange and its blob, recordset `empty`
has a manifest with no exchange. -/
def sampleStorage : List (String × ManifestFile) :=
  [("R", .ok { general := speedDefaults, requests := [storedExchange] }),
   ("empty", .ok { general := [], requests := [] })]

/-- The blobs of `sampleStorage`. -/
def sampleBlobs : List ((String × String) × List Nat) :=
  [(("R", "104-105-.html"), [104, 105])]

/-- A fresh loader over `sampleStorage`. -/
def freshState : State :=
  initialState sampleStorage sampleBlobs

/-- The state reached from `freshState` by the command `REPLAY-FILE R`. -/
def replayingState : State :=
  (dispatch sampleEnv freshState (.replayFile "R")).1

/-- The state in which the recorder holds two captured exchanges for recordset `A`. -/
def recordedState : State :=
  (freshState.capture "A" (sampleExchange none)).capture "A" otherExchange

/-- A run that records and saves recordset `A` and then asks for recordset `B`, which
has no manifest: `REPLAY-FILE-OR-RECORD A`, one exchange captured, `RECORD-END`,
`REPLAY-FILE-OR-RECORD B`. -/
def recordAThenB : State :=
  let s := (dispatch sampleEnv freshState (.replayFileOrRecord "A")).1
  let s := s.capture "A" (sampleExchange none)
  let s := (dispatch sampleEnv s .recordEnd).1
  (dispatch sampleEnv s (.replayFileOrRecord "B")).1

/-- Sample storage with two recordsets that `loadConfig` cannot load although their
manifests decode: `broken` refers to a blob that is not in storage, `constructor` bears
the name of a member of `Object.prototype`. -/
def oddStorage : List (String × ManifestFile) :=
  [("broken", .ok { general := [], requests := [storedExchange] }),
   ("constructor", .ok { general := [], requests := [sampleExchange none] })]

/-- A fresh loader over `oddStorage`, which holds no blob. -/
def oddState : State :=
  initialState oddStorage []


/-! ## Association lists -/

theorem ownProp_cons (k' : String) (v' : Val) (rest : Obj) (k : String) :
    ownProp ((k', v') :: rest) k = if k = k' then some v' else ownProp rest k := by
  unfold ownProp
  rw [List.lookup_cons]
  by_cases h : k = k'
  · simp [h]
  · have : (k == k') = false := by simpa using h
    simp [this, h]

theorem ownProp_setProp (g : Obj) (k : String) (v : Val) (k' : String) :
    ownProp (setProp g k v) k' = if k' = k then some v else ownProp g k' := by
  induction g with
  | nil =>
    by_cases h : k' = k
    · simp [setProp, ownProp_cons, h]
    · simp [setProp, ownProp_cons, h, ownProp]
  | cons p rest ih =>
    obtain ⟨a, b⟩ := p
    by_cases hak : a = k
    · subst hak
      simp only [setProp, if_true, ownProp_cons]
      by_cases h : k' = a <;> simp [h]
    · simp only [setProp, hak, if_false, ownProp_cons, ih]
      by_cases h1 : k' = a
      · have : k' ≠ k := fun e => hak (h1.symm.trans e)
        simp [h1, hak]
      · simp [h1]

theorem ownProp_eq_none_iff (g : Obj) (k : String) :
    ownProp g k = none ↔ k ∉ objectKeys g := by
  induction g with
  | nil => simp [ownProp, objectKeys]
  | cons p rest ih =>
    obtain ⟨a, b⟩ := p
    rw [ownProp_cons]
    by_cases h : k = a
    · simp [h, objectKeys]
    · simp only [h, if_false, ih]
      simp [objectKeys, h]

theorem ownProp_append (g h : Obj) (k : String) :
    ownProp (g ++ h) k = (ownProp g k).or (ownProp h k) := by
  unfold ownProp
  exact List.lookup_append

theorem ownProp_append_of_mem (g h : Obj) (k : String) (hk : k ∈ objectKeys g) :
    ownProp (g ++ h) k = ownProp g k := by
  rw [ownProp_append]
  cases hg : ownProp g k with
  | none => exact absurd hk ((ownProp_eq_none_iff g k).mp hg)
  | some v => rfl

theorem ownProp_append_of_not_mem (g h : Obj) (k : String) (hk : k ∉ objectKeys g) :
    ownProp (g ++ h) k = ownProp h k := by
  rw [ownProp_append, (ownProp_eq_none_iff g k).mpr hk]
  rfl

theorem setProp_of_not_mem (g : Obj) (k : String) (v : Val) (hk : k ∉ objectKeys g) :
    setProp g k v = g ++ [(k, v)] := by
  induction g with
  | nil => rfl
  | cons p rest ih =>
    obtain ⟨a, b⟩ := p
    have hne : a ≠ k := fun e => hk (by simp [objectKeys, e])
    have hrest : k ∉ objectKeys rest := fun e => hk (by simp [objectKeys] at e ⊢; exact Or.inr e)
    simp [setProp, hne, ih hrest]

theorem ownProp_deleteProp (g : Obj) (k k' : String) :
    ownProp (deleteProp g k) k' = if k' = k then none else ownProp g k' := by
  induction g with
  | nil => simp [deleteProp, ownProp]
  | cons p rest ih =>
    obtain ⟨a, b⟩ := p
    unfold deleteProp at ih ⊢
    by_cases hak : a = k
    · subst hak
      simp only [List.filter_cons, bne_self_eq_false, Bool.false_eq_true, if_false, ih,
        ownProp_cons]
      by_cases h : k' = a <;> simp [h]
    · have : (a != k) = true := by simpa using hak
      simp only [List.filter_cons, this, if_true, ownProp_cons, ih]
      by_cases h : k' = a
      · have : k' ≠ k := fun e => hak (h.symm.trans e)
        simp [h, hak]
      · simp [h]

theorem mem_of_ownProp (g : Obj) (k : String) (v : Val) (h : ownProp g k = some v) :
    (k, v) ∈ g := by
  induction g with
  | nil => simp [ownProp] at h
  | cons p rest ih =>
    obtain ⟨a, b⟩ := p
    rw [ownProp_cons] at h
    by_cases hk : k = a
    · simp only [hk, if_true, Option.some.injEq] at h
      simp [hk, h]
    · simp only [hk, if_false] at h
      exact List.mem_cons_of_mem _ (ih h)

theorem mem_objectKeys_of_mem (g : Obj) (kv : String × Val) (h : kv ∈ g) :
    kv.1 ∈ objectKeys g := by
  simp only [objectKeys, List.mem_map]
  exact ⟨kv, h, rfl⟩

theorem ownProp_isSome_of_mem_keys (d : Obj) (k : String) (hk : k ∈ objectKeys d) :
    ∃ v, ownProp d k = some v := by
  cases h : ownProp d k with
  | none => exact absurd hk ((ownProp_eq_none_iff d k).mp h)
  | some v => exact ⟨v, rfl⟩

/-! ## Reads through the prototype chain -/

theorem readProp_of_own (o : Obj) (k : String) (v : Val) (h : ownProp o k = some v) :
    readProp o k = .own v := by
  simp [readProp, h]

theorem readProp_congr (o o' : Obj) (k : String) (h : ownProp o k = ownProp o' k) :
    readProp o k = readProp o' k := by
  simp [readProp, h]

theorem readProp_not_own_of_none (o : Obj) (k : String) (h : ownProp o k = none) :
    ∀ w, readProp o k ≠ .own w := by
  intro w
  unfold readProp
  rw [h]
  by_cases hk : k ∈ objectPrototypeNames <;> simp [hk]

theorem readProp_falsy_iff (o : Obj) (k : String) :
    (readProp o k).truthy = false ↔
      (ownProp o k = none ∧ k ∉ objectPrototypeNames) ∨
      (∃ v, ownProp o k = some v ∧ v.truthy = false) := by
  unfold readProp
  cases h : ownProp o k with
  | none =>
    by_cases hk : k ∈ objectPrototypeNames <;> simp [hk, PropRead.truthy]
  | some v => simp [PropRead.truthy]

/-! ## Deep copy -/

theorem extendDeepValue_not_own (r : PropRead) (v : Val) (h : ∀ w, r ≠ .own w) :
    extendDeepValue r v = v := by
  cases v with
  | obj inner =>
    cases r with
    | own w => exact absurd rfl (h w)
    | undefined => simp [extendDeepValue]
    | inherited n => simp [extendDeepValue]
  | _ => simp [extendDeepValue]

theorem extendDeepFields_append (fields acc : Obj)
    (hnd : (objectKeys fields).Nodup)
    (hdisj : ∀ k ∈ objectKeys fields, k ∉ objectKeys acc) :
    extendDeepFields acc fields = acc ++ fields := by
  induction fields generalizing acc with
  | nil => simp [extendDeepFields]
  | cons p rest ih =>
    obtain ⟨k, v⟩ := p
    have hk : k ∉ objectKeys acc := hdisj k (by simp [objectKeys])
    simp only [objectKeys, List.map_cons, List.nodup_cons] at hnd
    rw [extendDeepFields,
      extendDeepValue_not_own _ v
        (readProp_not_own_of_none acc k ((ownProp_eq_none_iff acc k).mpr hk)),
      setProp_of_not_mem acc k v hk, ih (acc ++ [(k, v)]) hnd.2]
    · simp
    · intro k' hk' hmem
      simp only [objectKeys, List.map_append, List.map_cons, List.map_nil, List.mem_append,
        List.mem_singleton] at hmem
      rcases hmem with h | h
      · exact hdisj k' (by simp [objectKeys] at hk' ⊢; exact Or.inr hk') (by simpa [objectKeys] using h)
      · subst h
        exact hnd.1 hk'

theorem extendDeep_plainObject (v : Val) (hv : v.isPlainObject = true) :
    Val.obj (extendDeep [] (.own v)) = v := by
  cases v with
  | obj fields =>
    have hnd : (objectKeys fields).Nodup := by simpa [Val.isPlainObject] using hv
    simp only [extendDeep, ownProps]
    rw [extendDeepFields_append fields [] hnd (by simp [objectKeys])]
    simp
  | _ => simp [Val.isPlainObject] at hv

/-! ## The expand loop -/

theorem ownProp_expandPlugin (d g : Obj) (k p : String) :
    ownProp (expandPlugin d g k) p =
      if p = k ∧ (readProp g p).truthy = false then
        some (.obj (extendDeep [] (readProp d p)))
      else ownProp g p := by
  unfold expandPlugin
  by_cases ht : (readProp g k).truthy = true
  · simp only [ht, Bool.not_true, Bool.false_eq_true, if_false]
    by_cases hp : p = k
    · subst hp; simp [ht]
    · simp [hp]
  · have ht' : (readProp g k).truthy = false := by simpa using ht
    simp only [ht', Bool.not_false, if_true, ownProp_setProp]
    by_cases hp : p = k
    · subst hp; simp [ht']
    · simp [hp]

theorem ownProp_foldl_expandPlugin (d : Obj) (ks : List String) (g : Obj) (p : String) :
    ownProp (ks.foldl (expandPlugin d) g) p =
      if p ∈ ks ∧ (readProp g p).truthy = false then
        some (.obj (extendDeep [] (readProp d p)))
      else ownProp g p := by
  induction ks generalizing g with
  | nil => simp
  | cons k ks ih =>
    rw [List.foldl_cons, ih]
    by_cases hp : p = k
    · subst hp
      by_cases ht : (readProp g p).truthy = false
      · have hown : ownProp (expandPlugin d g p) p =
            some (.obj (extendDeep [] (readProp d p))) := by
          rw [ownProp_expandPlugin]; simp [ht]
        have hread : (readProp (expandPlugin d g p) p).truthy = true := by
          rw [readProp_of_own _ _ _ hown]; rfl
        simp [hread, hown, ht]
      · have hstep : expandPlugin d g p = g := by
          simp [expandPlugin, ht]
        simp [hstep, ht]
    · have hown : ownProp (expandPlugin d g k) p = ownProp g p := by
        rw [ownProp_expandPlugin]; simp [hp]
      rw [readProp_congr _ g p hown, hown]
      simp [hp]

theorem foldl_expandPlugin_append (d : Obj) (ks : List String) (g : Obj)
    (ht : ∀ k ∈ ks, ∀ v, ownProp g k = some v → v.truthy = true) :
    ∃ extra : Obj, ks.foldl (expandPlugin d) g = g ++ extra ∧
      ∀ kv ∈ extra, kv.1 ∈ ks ∧ kv.1 ∉ objectKeys g ∧
        kv.2 = .obj (extendDeep [] (readProp d kv.1)) := by
  induction ks generalizing g with
  | nil => exact ⟨[], by simp, by simp⟩
  | cons k ks ih =>
    rw [List.foldl_cons]
    by_cases hfill : (readProp g k).truthy = true
    · have hstep : expandPlugin d g k = g := by simp [expandPlugin, hfill]
      rw [hstep]
      obtain ⟨extra, hfold, hextra⟩ := ih g (fun k' hk' v' hv' => ht k' (by simp [hk']) v' hv')
      exact ⟨extra, hfold, fun kv hkv =>
        ⟨by simp [(hextra kv hkv).1], (hextra kv hkv).2.1, (hextra kv hkv).2.2⟩⟩
    · have hfalsy : (readProp g k).truthy = false := by simpa using hfill
      have hk : ownProp g k = none := by
        rcases (readProp_falsy_iff g k).mp hfalsy with h | ⟨v, hv, hvt⟩
        · exact h.1
        · have := ht k (by simp) v hv
          rw [this] at hvt
          exact absurd hvt (by simp)
      have hnot : k ∉ objectKeys g := (ownProp_eq_none_iff g k).mp hk
      have hstep : expandPlugin d g k = g ++ [(k, .obj (extendDeep [] (readProp d k)))] := by
        simp [expandPlugin, hfalsy, setProp_of_not_mem g k _ hnot]
      rw [hstep]
      obtain ⟨extra, hfold, hextra⟩ := ih (g ++ [(k, .obj (extendDeep [] (readProp d k)))]) (by
        intro k' hk' v' hv'
        rw [ownProp_append] at hv'
        cases hg : ownProp g k' with
        | some w =>
          rw [hg] at hv'
          simp only [Option.or_some, Option.some.injEq] at hv'
          subst hv'
          exact ht k' (by simp [hk']) w hg
        | none =>
          rw [hg, ownProp_cons] at hv'
          by_cases hkk : k' = k
          · simp only [hkk, if_true, Option.none_or, Option.some.injEq] at hv'
            subst hv'
            rfl
          · simp [hkk, ownProp] at hv')
      refine ⟨(k, .obj (extendDeep [] (readProp d k))) :: extra, by simp [hfold], ?_⟩
      intro kv hkv
      rcases List.mem_cons.mp hkv with h | h
      · subst h
        exact ⟨by simp, hnot, rfl⟩
      · obtain ⟨h1, h2, h3⟩ := hextra kv h
        refine ⟨by simp [h1], ?_, h3⟩
        intro hmem
        exact h2 (by simp [objectKeys] at hmem ⊢; exact Or.inl hmem)

/-! ## The compress loop -/

theorem foldl_compressPlugin (d : Obj) (ks : List String) (h : Obj) :
    ks.foldl (compressPlugin d) h =
      h.filter (fun kv =>
        !(decide (kv.1 ∈ ks) && compareObject (readProp d kv.1) (readProp h kv.1))) := by
  induction ks generalizing h with
  | nil => simp
  | cons k ks ih =>
    rw [List.foldl_cons, ih]
    by_cases hc : compareObject (readProp d k) (readProp h k) = true
    · have hstep : compressPlugin d h k = deleteProp h k := by simp [compressPlugin, hc]
      rw [hstep]
      conv_lhs => rw [deleteProp, List.filter_filter]
      apply List.filter_congr
      intro kv _
      by_cases hkv : kv.1 = k
      · simp [hkv, hc]
      · have hne : (kv.1 != k) = true := by simpa using hkv
        have hget : readProp (List.filter (fun kv => kv.1 != k) h) kv.1 = readProp h kv.1 := by
          apply readProp_congr
          have := ownProp_deleteProp h k kv.1
          simpa [deleteProp, hkv] using this
        simp [hget, hkv, hne]
    · have hc' : compareObject (readProp d k) (readProp h k) = false := by simpa using hc
      have hstep : compressPlugin d h k = h := by simp [compressPlugin, hc']
      rw [hstep]
      apply List.filter_congr
      intro kv _
      by_cases hkv : kv.1 = k
      · simp [hkv, hc']
      · simp [hkv]

theorem compressLoop_eq_filter (d h : Obj) :
    compressLoop d h =
      h.filter (fun kv =>
        !(decide (kv.1 ∈ objectKeys d) &&
          compareObject (readProp d kv.1) (readProp h kv.1))) :=
  foldl_compressPlugin d (objectKeys d) h

theorem ownProp_of_uniform (f : String → Val) (extra : Obj) (k : String)
    (hval : ∀ kv ∈ extra, kv.2 = f kv.1) (hk : k ∈ objectKeys extra) :
    ownProp extra k = some (f k) := by
  induction extra with
  | nil => simp [objectKeys] at hk
  | cons p rest ih =>
    obtain ⟨a, b⟩ := p
    rw [ownProp_cons]
    by_cases h : k = a
    · subst h
      have := hval (k, b) (by simp)
      simp only at this
      simp [this]
    · simp only [h, if_false]
      apply ih (fun kv hkv => hval kv (by simp [hkv]))
      simp only [objectKeys, List.map_cons, List.mem_cons] at hk
      rcases hk with hk | hk
      · exact absurd hk h
      · exact hk

theorem compressLoop_expandGeneral (d g : Obj)
    (hd : ∀ k v, ownProp d k = some v → v.isPlainObject = true)
    (ht : ∀ k ∈ objectKeys d, ∀ v, ownProp g k = some v → v.truthy = true) :
    compressLoop d (expandGeneral d g) = compressLoop d g := by
  obtain ⟨extra, hfold, hextra⟩ := foldl_expandPlugin_append d (objectKeys d) g ht
  unfold expandGeneral
  rw [hfold, compressLoop_eq_filter, compressLoop_eq_filter, List.filter_append]
  have hright : extra.filter (fun kv =>
      !(decide (kv.1 ∈ objectKeys d) &&
        compareObject (readProp d kv.1) (readProp (g ++ extra) kv.1))) = [] := by
    rw [List.filter_eq_nil_iff]
    intro kv hkv
    obtain ⟨h1, h2, _⟩ := hextra kv hkv
    obtain ⟨dv, hdv⟩ := ownProp_isSome_of_mem_keys d kv.1 h1
    have hlook : ownProp (g ++ extra) kv.1 =
        some (.obj (extendDeep [] (readProp d kv.1))) := by
      rw [ownProp_append_of_not_mem g extra kv.1 h2]
      exact ownProp_of_uniform (fun k => .obj (extendDeep [] (readProp d k))) extra kv.1
        (fun kv' hkv' => (hextra kv' hkv').2.2) (mem_objectKeys_of_mem extra kv hkv)
    rw [readProp_of_own _ _ _ hlook, readProp_of_own _ _ _ hdv,
      extendDeep_plainObject dv (hd kv.1 dv hdv)]
    simp [compareObject, h1]
  have hleft : g.filter (fun kv =>
      !(decide (kv.1 ∈ objectKeys d) &&
        compareObject (readProp d kv.1) (readProp (g ++ extra) kv.1))) =
      g.filter (fun kv =>
        !(decide (kv.1 ∈ objectKeys d) &&
          compareObject (readProp d kv.1) (readProp g kv.1))) := by
    apply List.filter_congr
    intro kv hkv
    rw [readProp_congr (g ++ extra) g kv.1
      (ownProp_append_of_mem g extra kv.1 (mem_objectKeys_of_mem g kv hkv))]
  rw [hright, hleft, List.append_nil]

theorem compressLoop_id (d g : Obj)
    (hne : ∀ k ∈ objectKeys d, ∀ v, ownProp g k = some v →
      compareObject (readProp d k) (.own v) = false) :
    compressLoop d g = g := by
  rw [compressLoop_eq_filter, List.filter_eq_self]
  intro kv hkv
  by_cases hk : kv.1 ∈ objectKeys d
  · obtain ⟨v, hv⟩ := ownProp_isSome_of_mem_keys g kv.1 (mem_objectKeys_of_mem g kv hkv)
    rw [readProp_of_own _ _ _ hv, hne kv.1 hk v hv]
    simp
  · simp [hk]

/-! ## Overlay: claims C1, C2, C3 -/

theorem compress_of_general (d : Obj) (e : Exchange) (g : Obj) (h : e.general = some g) :
    compress d e =
      { e with general :=
          if isEmptyObject (some (compressLoop d g)) then none
          else some (compressLoop d g) } := by
  unfold compress compressGeneral
  rw [h]
  by_cases hemp : isEmptyObject (some (compressLoop d g)) = true
  · simp [hemp]
  · simp [hemp]

theorem compress_of_absent (d : Obj) (e : Exchange) (h : e.general = none) :
    compress d e = e := by
  obtain ⟨req, res, general⟩ := e
  simp only at h
  subst h
  unfold compress compressGeneral
  cases hk : objectKeys d <;> simp

/-- C2 (amended). When every default is a plain object and every per-exchange entry under
a plugin name of the defaults is truthy, compressing the expansion of an exchange gives
the same exchange as compressing it directly. -/
theorem compress_expand_eq_compress (d : Obj) (e : Exchange)
    (hd : ∀ kv ∈ d, kv.2.isPlainObject = true)
    (he : ∀ kv ∈ e.general.getD [], kv.1 ∈ objectKeys d → kv.2.truthy = true) :
    compress d (expand d e) = compress d e := by
  have hfold := compressLoop_expandGeneral d (e.general.getD [])
    (fun k v hv => hd (k, v) (mem_of_ownProp d k v hv))
    (fun k hk v hv => he (k, v) (mem_of_ownProp _ k v hv) hk)
  rw [compress_of_general d (expand d e) (expandGeneral d (e.general.getD [])) rfl, hfold]
  cases hg : e.general with
  | none =>
    rw [compress_of_absent d e hg]
    have hnil : compressLoop d ([] : Obj) = [] := by
      rw [compressLoop_eq_filter]; rfl
    obtain ⟨req, res, general⟩ := e
    simp only at hg
    subst hg
    simp [expand, hnil, isEmptyObject]
  | some g =>
    rw [compress_of_general d e g hg]
    simp [expand]

theorem compress_expand_eq_compress_witness :
    (∀ kv ∈ speedDefaults, kv.2.isPlainObject = true) ∧
    (∀ kv ∈ (sampleExchange (some [("cache", .obj [("ttl", .num 5)])])).general.getD [],
      kv.1 ∈ objectKeys speedDefaults → kv.2.truthy = true) ∧
    compress speedDefaults
        (expand speedDefaults (sampleExchange (some [("cache", .obj [("ttl", .num 5)])]))) =
      compress speedDefaults (sampleExchange (some [("cache", .obj [("ttl", .num 5)])])) :=
  ⟨by decide, by decide,
    compress_expand_eq_compress speedDefaults
      (sampleExchange (some [("cache", .obj [("ttl", .num 5)])])) (by decide) (by decide)⟩

/-- C2 (as stated) fails: with the default `speed: {delay: 100}` and an exchange whose
`general` is `{speed: 0}`, expanding replaces the falsy `0` by the default, which the
compress step then deletes, whereas compressing the exchange directly keeps `speed: 0`. -/
theorem compress_expand_ne_compress_falsy :
    compress speedDefaults (expand speedDefaults (sampleExchange (some [("speed", .num 0)]))) =
      sampleExchange none ∧
    compress speedDefaults (sampleExchange (some [("speed", .num 0)])) =
      sampleExchange (some [("speed", .num 0)]) ∧
    compress speedDefaults (expand speedDefaults (sampleExchange (some [("speed", .num 0)]))) ≠
      compress speedDefaults (sampleExchange (some [("speed", .num 0)])) := by
  decide

/-- C1 (amended). When every default is a plain object and every per-exchange entry under
a plugin name of the defaults is truthy and, as the data model requires, not
structurally equal to the default, expanding and then compressing an exchange with the
same defaults gives the exchange back, with an `overrides` field that was present but
empty made absent. -/
theorem compress_expand_roundtrip (d : Obj) (e : Exchange)
    (hd : ∀ kv ∈ d, kv.2.isPlainObject = true)
    (he : ∀ kv ∈ e.general.getD [], kv.1 ∈ objectKeys d →
      kv.2.truthy = true ∧ compareObject (readProp d kv.1) (.own kv.2) = false) :
    compress d (expand d e) = normalizeOverrides e := by
  have hfold := compressLoop_expandGeneral d (e.general.getD [])
    (fun k v hv => hd (k, v) (mem_of_ownProp d k v hv))
    (fun k hk v hv => (he (k, v) (mem_of_ownProp _ k v hv) hk).1)
  have hid := compressLoop_id d (e.general.getD [])
    (fun k hk v hv => (he (k, v) (mem_of_ownProp _ k v hv) hk).2)
  rw [compress_of_general d (expand d e) (expandGeneral d (e.general.getD [])) rfl, hfold, hid]
  obtain ⟨req, res, general⟩ := e
  cases general with
  | none => simp [expand, normalizeOverrides, isEmptyObject]
  | some g =>
    cases g with
    | nil => simp [expand, normalizeOverrides, isEmptyObject]
    | cons p rest => simp [expand, normalizeOverrides, isEmptyObject]

theorem compress_expand_roundtrip_witness :
    (∀ kv ∈ twoDefaults, kv.2.isPlainObject = true) ∧
    (∀ kv ∈ (sampleExchange (some [("cache", .obj [("ttl", .num 5)])])).general.getD [],
      kv.1 ∈ objectKeys twoDefaults →
        kv.2.truthy = true ∧ compareObject (readProp twoDefaults kv.1) (.own kv.2) = false) ∧
    (expand twoDefaults (sampleExchange (some [("cache", .obj [("ttl", .num 5)])]))).general =
      some [("cache", .obj [("ttl", .num 5)]), ("speed", .obj [("delay", .num 100)])] ∧
    compress twoDefaults
        (expand twoDefaults (sampleExchange (some [("cache", .obj [("ttl", .num 5)])]))) =
      normalizeOverrides (sampleExchange (some [("cache", .obj [("ttl", .num 5)])])) :=
  ⟨by decide, by decide, by decide,
    compress_expand_roundtrip twoDefaults
      (sampleExchange (some [("cache", .obj [("ttl", .num 5)])])) (by decide) (by decide)⟩

/-- C1 (as stated) fails on exchanges that keep the data model's rule (no entry equal
to its default). With the default `speed: {delay: 100}` and the entry `speed: null`,
the expand step replaces the falsy entry by the default and the compress step deletes
it, so the entry is lost. With the default `speed: 5`, which is not an object, and an
exchange without `general`, the expand step writes `speed: {}`, which the compress
step keeps, so an entry is gained. -/
theorem roundtrip_fails_on_falsy_entry_and_scalar_default :
    compareObject (readProp speedDefaults "speed") (.own .null) = false ∧
    compress speedDefaults (expand speedDefaults (sampleExchange (some [("speed", .null)]))) =
      sampleExchange none ∧
    compress speedDefaults (expand speedDefaults (sampleExchange (some [("speed", .null)]))) ≠
      normalizeOverrides (sampleExchange (some [("speed", .null)])) ∧
    compress [("speed", .num 5)] (expand [("speed", .num 5)] (sampleExchange none)) =
      sampleExchange (some [("speed", .obj [])]) ∧
    compress [("speed", .num 5)] (expand [("speed", .num 5)] (sampleExchange none)) ≠
      normalizeOverrides (sampleExchange none) := by
  decide

/-- C3 (amended). After the expand step, for every plugin name `p`: an entry of the
exchange with a truthy value keeps its value; when `p` is a name of the defaults and the
read `general[p]` is falsy (the exchange has a falsy entry for `p`, or it has none and
`p` is not the name of a member of `Object.prototype`), the entry is a fresh object
extended with the default, which is structurally equal to the default when the default
is a plain object; when the exchange has no entry for `p` and `p` is the name of a
member of `Object.prototype`, it still has none; and an entry whose name is not in the
defaults is unchanged. The rest of the exchange is untouched. -/
theorem expand_overlay (d : Obj) (e : Exchange) (p : String) :
    (expand d e).req = e.req ∧ (expand d e).res = e.res ∧
    (expand d e).general = some (expandGeneral d (e.general.getD [])) ∧
    (∀ v, ownProp (e.general.getD []) p = some v → v.truthy = true →
      ownProp (expandGeneral d (e.general.getD [])) p = some v) ∧
    (p ∈ objectKeys d → (readProp (e.general.getD []) p).truthy = false →
      ownProp (expandGeneral d (e.general.getD [])) p =
          some (.obj (extendDeep [] (readProp d p))) ∧
        ∀ dv, ownProp d p = some dv → dv.isPlainObject = true →
          ownProp (expandGeneral d (e.general.getD [])) p = some dv) ∧
    ((readProp (e.general.getD []) p).truthy = false ↔
      (ownProp (e.general.getD []) p = none ∧ p ∉ objectPrototypeNames) ∨
      (∃ v, ownProp (e.general.getD []) p = some v ∧ v.truthy = false)) ∧
    (ownProp (e.general.getD []) p = none → p ∈ objectPrototypeNames →
      ownProp (expandGeneral d (e.general.getD [])) p = none) ∧
    (p ∉ objectKeys d →
      ownProp (expandGeneral d (e.general.getD [])) p = ownProp (e.general.getD []) p) := by
  refine ⟨rfl, rfl, rfl, ?_, ?_, readProp_falsy_iff _ p, ?_, ?_⟩
  · intro v hv ht
    unfold expandGeneral
    rw [ownProp_foldl_expandPlugin, readProp_of_own _ _ _ hv]
    simp [PropRead.truthy, ht, hv]
  · intro hp hf
    have hget : ownProp (expandGeneral d (e.general.getD [])) p =
        some (.obj (extendDeep [] (readProp d p))) := by
      unfold expandGeneral
      rw [ownProp_foldl_expandPlugin]
      simp [hp, hf]
    refine ⟨hget, ?_⟩
    intro dv hdv hplain
    rw [hget, readProp_of_own _ _ _ hdv, extendDeep_plainObject dv hplain]
  · intro hnone hproto
    have htruthy : (readProp (e.general.getD []) p).truthy = true := by
      simp [readProp, hnone, hproto, PropRead.truthy]
    unfold expandGeneral
    rw [ownProp_foldl_expandPlugin]
    simp [htruthy, hnone]
  · intro hp
    unfold expandGeneral
    rw [ownProp_foldl_expandPlugin]
    simp [hp]

theorem expand_overlay_witness :
    ownProp (expandGeneral twoDefaults [("cache", .bool true)]) "cache" = some (.bool true) ∧
    ownProp (expandGeneral twoDefaults [("cache", .bool true)]) "speed" =
      some (.obj [("delay", .num 100)]) ∧
    ownProp (expandGeneral twoDefaults [("cache", .bool true)]) "constructor" = none :=
  ⟨(expand_overlay twoDefaults (sampleExchange (some [("cache", .bool true)])) "cache").2.2.2.1
      (.bool true) (by decide) (by decide),
    ((expand_overlay twoDefaults (sampleExchange (some [("cache", .bool true)])) "speed").2.2.2.2.1
      (by decide) (by decide)).2 (.obj [("delay", .num 100)]) (by decide) (by decide),
    (expand_overlay twoDefaults (sampleExchange (some [("cache", .bool true)]))
      "constructor").2.2.2.2.2.2.1 (by decide) (by decide)⟩

/-- C3 (as stated) fails in three ways. An entry that is present with the value `false`
does not keep its value: the expand step overwrites it with a copy of the default. A
default plugin named `constructor` that the exchange lacks is not filled in, because the
read `general['constructor']` finds the inherited member. A default that is the number
`5` is filled in as the object `{}`, which is not structurally equal to it. -/
theorem expand_overwrites_false :
    ownProp ((sampleExchange (some [("speed", .bool false)])).general.getD []) "speed" =
      some (.bool false) ∧
    (expand speedDefaults (sampleExchange (some [("speed", .bool false)]))).general =
      some [("speed", .obj [("delay", .num 100)])] ∧
    ownProp ((expand speedDefaults (sampleExchange (some [("speed", .bool false)]))).general.getD [])
      "speed" ≠ some (.bool false) ∧
    (expand [("constructor", .obj [("delay", .num 100)])] (sampleExchange none)).general =
      some [] ∧
    (expand [("speed", .num 5)] (sampleExchange none)).general =
      some [("speed", .obj [])] := by
  decide

/-! ## Extension resolver: claim C10 -/

/-- C10. `_defaultExt` is total and gives, for every content type: the extension that
`mime.extension` finds, when it finds one; otherwise `ttf` when the content type is
exactly `application/x-font-ttf`; otherwise `unknown`. In particular, when the MIME table
has no other extension for them, `application/x-font-ttf` resolves to `ttf` and
`application/x-totally-unknown` to `unknown`. -/
theorem defaultExt_resolves (env : Env) (contentType : Option String) :
    (∀ ext, env.mimeExtension contentType = some ext → ext ≠ "" →
      _defaultExt env contentType = ext) ∧
    ((env.mimeExtension contentType = none ∨ env.mimeExtension contentType = some "") →
      (contentType = some "application/x-font-ttf" → _defaultExt env contentType = "ttf") ∧
      (contentType ≠ some "application/x-font-ttf" →
        _defaultExt env contentType = "unknown")) ∧
    ((env.mimeExtension (some "application/x-font-ttf") = none ∨
        env.mimeExtension (some "application/x-font-ttf") = some "ttf") →
      _defaultExt env (some "application/x-font-ttf") = "ttf") ∧
    (env.mimeExtension (some "application/x-totally-unknown") = none →
      _defaultExt env (some "application/x-totally-unknown") = "unknown") := by
  refine ⟨?_, ?_, ?_, ?_⟩
  · intro ext h hne
    simp [_defaultExt, h, hne]
  · intro h
    rcases h with h | h
    · constructor
      · intro hc; subst hc; simp [_defaultExt, h]
      · intro hc; simp [_defaultExt, h, hc]
    · constructor
      · intro hc; subst hc; simp [_defaultExt, h]
      · intro hc; simp [_defaultExt, h, hc]
  · intro h
    rcases h with h | h
    · simp [_defaultExt, h]
    · simp [_defaultExt, h]
  · intro h
    simp [_defaultExt, h]

theorem defaultExt_resolves_witness :
    _defaultExt sampleEnv (some "text/html") = "html" ∧
    _defaultExt sampleEnv (some "application/x-font-ttf") = "ttf" ∧
    _defaultExt sampleEnv (some "application/x-totally-unknown") = "unknown" ∧
    _defaultExt sampleEnv none = "unknown" :=
  ⟨(defaultExt_resolves sampleEnv (some "text/html")).1 "html" (by decide) (by decide),
    (defaultExt_resolves sampleEnv none).2.2.1 (Or.inl (by decide)),
    (defaultExt_resolves sampleEnv none).2.2.2 (by decide),
    ((defaultExt_resolves sampleEnv none).2.1 (Or.inl (by decide))).2 (by decide)⟩

/-! ## Blob naming: claim C9 -/

theorem lookup_assign_self {κ α : Type} [DecidableEq κ] (m : List (κ × α)) (k : κ) (v : α) :
    (assign m k v).lookup k = some v := by
  induction m with
  | nil => simp [assign, List.lookup_cons]
  | cons p rest ih =>
    obtain ⟨a, b⟩ := p
    by_cases h : a = k
    · simp [assign, h, List.lookup_cons]
    · have hb : (k == a) = false := by simpa using fun e : k = a => h e.symm
      simp [assign, h, List.lookup_cons, hb, ih]

theorem lookup_assign_ne {κ α : Type} [DecidableEq κ] (m : List (κ × α)) (k k' : κ) (v : α)
    (hne : k' ≠ k) : (assign m k v).lookup k' = m.lookup k' := by
  induction m with
  | nil =>
    have hb : (k' == k) = false := by simpa using hne
    simp [assign, List.lookup_cons, hb]
  | cons p rest ih =>
    obtain ⟨a, b⟩ := p
    by_cases h : a = k
    · subst h
      have hb : (k' == a) = false := by simpa using hne
      simp [assign, List.lookup_cons, hb]
    · simp only [assign, h, if_false, List.lookup_cons, ih]

theorem readConfigs_writeConfigs (s : State) (name : String) (e : CacheEntry) :
    (s.writeConfigs name e).readConfigs name = .entry e := by
  by_cases h : name = "__proto__"
  · simp [State.writeConfigs, State.readConfigs, h]
  · simp [State.writeConfigs, State.readConfigs, h, lookup_assign_self]

theorem saveRequest_file (env : Env) (d : Obj) (faults : List Fault) (f : String)
    (blobs : List ((String × String) × List Nat)) (idx : Nat) (x : Exchange) :
    (saveRequest env d faults f blobs idx x).newReq.res.file =
      some (blobFileName env idx x) := by
  unfold saveRequest
  cases hb : x.res.body with
  | none => cases hc : compressGeneral d x.general <;> simp
  | some body =>
    by_cases hf : Fault.writeBlob f (blobFileName env idx x) ∈ faults <;>
      cases hc : compressGeneral d x.general <;> simp [hf]

theorem saveRequests_file (env : Env) (d : Obj) (faults : List Fault) (f : String)
    (reqs : List Exchange) :
    ∀ (blobs : List ((String × String) × List Nat)) (idx i : Nat) (x : Exchange),
      reqs[i]? = some x →
      ((saveRequests env d faults f blobs idx reqs).saved[i]?).bind (fun x' => x'.res.file) =
        some (blobFileName env (idx + i) x) := by
  induction reqs with
  | nil => intro blobs idx i x h; simp at h
  | cons r rest ih =>
    intro blobs idx i x h
    cases i with
    | zero =>
      simp only [List.getElem?_cons_zero, Option.some.injEq] at h
      subst h
      simp [saveRequests, saveRequest_file]
    | succ n =>
      simp only [List.getElem?_cons_succ] at h
      have := ih (saveRequest env d faults f blobs idx r).blobs (idx + 1) n x h
      simp only [saveRequests, List.getElem?_cons_succ]
      rw [this]
      congr 2
      omega

theorem folderExists_writeConfigs (s : State) (name f : String) (e : CacheEntry)
    (c : Config) :
    ({ s with defaultConfig := c }.writeConfigs name e).folderExists f = s.folderExists f := by
  by_cases h : name = "__proto__" <;> simp [State.writeConfigs, State.folderExists, h]

theorem faults_writeConfigs (s : State) (name : String) (e : CacheEntry) (c : Config) :
    ({ s with defaultConfig := c }.writeConfigs name e).faults = s.faults := by
  by_cases h : name = "__proto__" <;> simp [State.writeConfigs, h]

theorem cachedFile_saveConfig (env : Env) (s : State) (f : String) (i : Nat) (x : Exchange)
    (hx : (s.matcherGetRequests f)[i]? = some x)
    (hrun : s.folderExists f = true ∨ Fault.mkdir f ∉ s.faults) :
    (saveConfig env s f).cachedFile f i = some (blobFileName env i x) := by
  have h := saveRequests_file env s.defaultConfig.general s.faults f
    (s.matcherGetRequests f) s.blobs 0 i x hx
  have hcond : (!s.folderExists f && decide (Fault.mkdir f ∈ s.faults)) = false := by
    rcases hrun with hr | hr <;> simp [hr]
  unfold saveConfig
  simp only [folderExists_writeConfigs, faults_writeConfigs, hcond]
  by_cases hp : f = "__proto__"
  · by_cases hw : Fault.writeManifest f ∈ s.faults
    · simp [hp] at hw h ⊢
      simp [State.cachedFile, State.readConfigs, State.writeConfigs, State.log, State.deref,
        hw, h]
    · simp [hp] at hw h ⊢
      simp [State.cachedFile, State.readConfigs, State.writeConfigs, State.log, State.deref,
        hw, h]
  · by_cases hw : Fault.writeManifest f ∈ s.faults
    · simp [State.cachedFile, State.readConfigs, State.writeConfigs, State.log, State.deref,
        hw, hp, lookup_assign_self]
      simpa using h
    · simp [State.cachedFile, State.readConfigs, State.writeConfigs, State.log, State.deref,
        hw, hp, lookup_assign_self]
      simpa using h

theorem manifestFile_saveConfig (env : Env) (s : State) (f : String) (i : Nat) (x : Exchange)
    (hx : (s.matcherGetRequests f)[i]? = some x)
    (hrun : s.folderExists f = true ∨ Fault.mkdir f ∉ s.faults)
    (hwrite : Fault.writeManifest f ∉ s.faults) :
    (saveConfig env s f).manifestFile f i = some (blobFileName env i x) := by
  have h := saveRequests_file env s.defaultConfig.general s.faults f
    (s.matcherGetRequests f) s.blobs 0 i x hx
  have hcond : (!s.folderExists f && decide (Fault.mkdir f ∈ s.faults)) = false := by
    rcases hrun with hr | hr <;> simp [hr]
  unfold saveConfig
  simp only [folderExists_writeConfigs, faults_writeConfigs, hcond]
  by_cases hp : f = "__proto__"
  · simp [hp] at hwrite h ⊢
    simp [State.manifestFile, State.writeConfigs, State.log, hwrite, lookup_assign_self, h]
  · simp [State.manifestFile, State.writeConfigs, State.log, hwrite, hp, lookup_assign_self]
    simpa using h

theorem blobFileName_of_body (env : Env) (idx : Nat) (x : Exchange) (body : List Nat)
    (hb : x.res.body = some body) :
    blobFileName env idx x =
      env.md5hex body ++ "." ++ _defaultExt env (x.res.headers.lookup "content-type") := by
  simp [blobFileName, hb]

theorem saveRequest_request_file (env : Env) (d : Obj) (faults : List Fault) (f : String)
    (blobs : List ((String × String) × List Nat)) (idx : Nat) (x : Exchange) :
    (saveRequest env d faults f blobs idx x).request.res =
      (saveRequest env d faults f blobs idx x).newReq.res := by
  unfold saveRequest
  cases hc : compressGeneral d x.general <;> simp

theorem saveConfig_aborted (env : Env) (s : State) (f : String)
    (hexists : s.folderExists f = false) (hfault : Fault.mkdir f ∈ s.faults) :
    (saveConfig env s f).storage = s.storage ∧ (saveConfig env s f).blobs = s.blobs ∧
    (saveConfig env s f).matcher = s.matcher ∧
    (saveConfig env s f).trace = s.trace ++ [.loggerError] := by
  have hcond : (!s.folderExists f && decide (Fault.mkdir f ∈ s.faults)) = true := by
    simp [hexists, hfault]
  unfold saveConfig
  simp only [folderExists_writeConfigs, faults_writeConfigs, hcond]
  by_cases hp : f = "__proto__" <;> simp [State.writeConfigs, State.log, hp]

/-- C9. Take two exchanges that the recorder holds at any positions of the exchange
lists of any recordsets, with the same response body bytes and the same `content-type`
header. Every round of the `map` of `saveConfig` that works on one of them writes the
same blob file name to `res.file`, of the saved copy and of the recorder's exchange: the
digest of the body, a dot, and the resolved extension, whatever the position, the
recordset and the state of storage. When `saveConfig` gets past the creation of the
recordset's folder (the folder exists or can be created), this name is in the saved
list in memory, and in the manifest when the manifest can be written. When the folder
cannot be created the `map` does not run: nothing is written, neither to the exchanges
nor to storage. -/
theorem saveConfig_blob_name (env : Env) (s₁ s₂ : State) (f₁ f₂ : String) (i j : Nat)
    (x y : Exchange) (body : List Nat)
    (hx : (s₁.matcherGetRequests f₁)[i]? = some x)
    (hy : (s₂.matcherGetRequests f₂)[j]? = some y)
    (hbx : x.res.body = some body) (hby : y.res.body = some body)
    (hct : x.res.headers.lookup "content-type" = y.res.headers.lookup "content-type") :
    (∀ d faults f blobs idx,
      (saveRequest env d faults f blobs idx x).newReq.res.file =
          some (env.md5hex body ++ "." ++
            _defaultExt env (x.res.headers.lookup "content-type")) ∧
        (saveRequest env d faults f blobs idx x).request.res.file =
          (saveRequest env d faults f blobs idx x).newReq.res.file) ∧
    (∀ d faults f blobs idx,
      (saveRequest env d faults f blobs idx y).newReq.res.file =
          some (env.md5hex body ++ "." ++
            _defaultExt env (x.res.headers.lookup "content-type")) ∧
        (saveRequest env d faults f blobs idx y).request.res.file =
          (saveRequest env d faults f blobs idx y).newReq.res.file) ∧
    ((s₁.folderExists f₁ = true ∨ Fault.mkdir f₁ ∉ s₁.faults) →
      (saveConfig env s₁ f₁).cachedFile f₁ i =
          some (env.md5hex body ++ "." ++
            _defaultExt env (x.res.headers.lookup "content-type")) ∧
        (Fault.writeManifest f₁ ∉ s₁.faults →
          (saveConfig env s₁ f₁).manifestFile f₁ i =
            (saveConfig env s₁ f₁).cachedFile f₁ i)) ∧
    ((s₂.folderExists f₂ = true ∨ Fault.mkdir f₂ ∉ s₂.faults) →
      (saveConfig env s₂ f₂).cachedFile f₂ j =
          some (env.md5hex body ++ "." ++
            _defaultExt env (x.res.headers.lookup "content-type")) ∧
        (Fault.writeManifest f₂ ∉ s₂.faults →
          (saveConfig env s₂ f₂).manifestFile f₂ j =
            (saveConfig env s₂ f₂).cachedFile f₂ j)) ∧
    (s₁.folderExists f₁ = false → Fault.mkdir f₁ ∈ s₁.faults →
      (saveConfig env s₁ f₁).storage = s₁.storage ∧
        (saveConfig env s₁ f₁).blobs = s₁.blobs ∧
        (saveConfig env s₁ f₁).matcher = s₁.matcher) ∧
    (s₂.folderExists f₂ = false → Fault.mkdir f₂ ∈ s₂.faults →
      (saveConfig env s₂ f₂).storage = s₂.storage ∧
        (saveConfig env s₂ f₂).blobs = s₂.blobs ∧
        (saveConfig env s₂ f₂).matcher = s₂.matcher) := by
  refine ⟨?_, ?_, ?_, ?_, ?_, ?_⟩
  · intro d faults f blobs idx
    rw [saveRequest_request_file, saveRequest_file, blobFileName_of_body env idx x body hbx]
    exact ⟨rfl, rfl⟩
  · intro d faults f blobs idx
    rw [saveRequest_request_file, saveRequest_file, blobFileName_of_body env idx y body hby,
      hct]
    exact ⟨rfl, rfl⟩
  · intro hrun
    rw [cachedFile_saveConfig env s₁ f₁ i x hx hrun, blobFileName_of_body env i x body hbx]
    refine ⟨rfl, ?_⟩
    intro hw
    rw [manifestFile_saveConfig env s₁ f₁ i x hx hrun hw,
      blobFileName_of_body env i x body hbx]
  · intro hrun
    rw [cachedFile_saveConfig env s₂ f₂ j y hy hrun, blobFileName_of_body env j y body hby,
      hct]
    refine ⟨rfl, ?_⟩
    intro hw
    rw [manifestFile_saveConfig env s₂ f₂ j y hy hrun hw,
      blobFileName_of_body env j y body hby]
  · intro hexists hfault
    have h := saveConfig_aborted env s₁ f₁ hexists hfault
    exact ⟨h.1, h.2.1, h.2.2.1⟩
  · intro hexists hfault
    have h := saveConfig_aborted env s₂ f₂ hexists hfault
    exact ⟨h.1, h.2.1, h.2.2.1⟩

theorem saveConfig_blob_name_witness :
    (recordedState.matcherGetRequests "A")[0]? = some (sampleExchange none) ∧
    (recordedState.matcherGetRequests "A")[1]? = some otherExchange ∧
    (sampleExchange none).res.body = some [104, 105] ∧
    otherExchange.res.body = some [104, 105] ∧
    (saveConfig sampleEnv recordedState "A").cachedFile "A" 0 = some "104-105-.html" ∧
    (saveConfig sampleEnv recordedState "A").cachedFile "A" 1 = some "104-105-.html" ∧
    (saveConfig sampleEnv recordedState "A").manifestFile "A" 1 =
      (saveConfig sampleEnv recordedState "A").cachedFile "A" 1 :=
  have h := saveConfig_blob_name sampleEnv recordedState recordedState "A" "A" 0 1
    (sampleExchange none) otherExchange [104, 105]
    (by decide) (by decide) (by decide) (by decide) (by decide)
  ⟨by decide, by decide, by decide, by decide,
    (h.2.2.1 (Or.inr (by decide))).1.trans (by decide),
    (h.2.2.2.1 (Or.inr (by decide))).1.trans (by decide),
    (h.2.2.2.1 (Or.inr (by decide))).2 (by decide)⟩

/-! ## Cache: claim C8 -/

theorem loadRequest_events (env : Env) (blobs : List ((String × String) × List Nat))
    (name : String) (x : Exchange) :
    ∀ ev ∈ (loadRequest env blobs name x).1, ∃ file, ev = Event.readBlob name file := by
  intro ev hev
  unfold loadRequest at hev
  cases hf : x.res.file with
  | none =>
    rw [hf] at hev
    by_cases hb : x.res.body = none <;> simp [hb] at hev
  | some file =>
    rw [hf] at hev
    by_cases hfile : file = ""
    · by_cases hb : x.res.body = none <;> simp [hfile, hb] at hev
    · cases hl : blobs.lookup (name, file) with
      | none =>
        simp [hfile, hl] at hev
        exact ⟨file, hev⟩
      | some bytes =>
        simp [hfile, hl] at hev
        exact ⟨file, hev⟩

theorem loadRequest_isSome (env : Env) (blobs : List ((String × String) × List Nat))
    (name : String) (x : Exchange)
    (hblob : ∀ file, x.res.file = some file → file ≠ "" →
      (blobs.lookup (name, file)).isSome = true) :
    (loadRequest env blobs name x).2.isSome = true := by
  unfold loadRequest
  cases hf : x.res.file with
  | none =>
    by_cases hb : x.res.body = none <;> simp [hb]
  | some file =>
    by_cases hfile : file = ""
    · by_cases hb : x.res.body = none <;> simp [hfile, hb]
    · have hsome := hblob file hf hfile
      cases hl : blobs.lookup (name, file) with
      | none => rw [hl] at hsome; simp at hsome
      | some bytes => simp [hfile, hl]

theorem loadRequest_ok (env : Env) (blobs : List ((String × String) × List Nat))
    (name : String) (x : Exchange)
    (hblob : ∀ file, x.res.file = some file → file ≠ "" →
      (blobs.lookup (name, file)).isSome = true) :
    ∃ events newReq, loadRequest env blobs name x = (events, some newReq) ∧
      ∀ ev ∈ events, ∃ file, ev = Event.readBlob name file := by
  have h1 := loadRequest_events env blobs name x
  have h2 := loadRequest_isSome env blobs name x hblob
  cases hr : loadRequest env blobs name x with
  | mk events result =>
    rw [hr] at h1 h2
    cases result with
    | none => simp at h2
    | some newReq => exact ⟨events, newReq, rfl, h1⟩

theorem loadRequests_ok (env : Env) (blobs : List ((String × String) × List Nat))
    (name : String) (requests : List Exchange)
    (hblobs : ∀ x ∈ requests, ∀ file, x.res.file = some file → file ≠ "" →
      (blobs.lookup (name, file)).isSome = true) :
    ∃ events reqs, loadRequests env blobs name requests = (events, some reqs) ∧
      reqs.length = requests.length ∧
      ∀ ev ∈ events, ∃ file, ev = Event.readBlob name file := by
  induction requests with
  | nil => exact ⟨[], [], rfl, rfl, by simp⟩
  | cons x rest ih =>
    obtain ⟨ev1, newReq, h1, hev1⟩ := loadRequest_ok env blobs name x (hblobs x (by simp))
    obtain ⟨ev2, reqs, h2, hlen, hev2⟩ := ih (fun y hy => hblobs y (by simp [hy]))
    refine ⟨ev1 ++ ev2, newReq :: reqs, ?_, by simp [hlen], ?_⟩
    · simp [loadRequests, h1, h2]
    · intro ev hev
      rcases List.mem_append.mp hev with h | h
      · exact hev1 ev h
      · exact hev2 ev h

theorem readConfigs_log (s : State) (events : List Event) (name : String) :
    (s.log events).readConfigs name = s.readConfigs name := by
  rfl

theorem readConfigs_missing (s : State) (name : String) (h : s.readConfigs name = .missing) :
    name ≠ "__proto__" ∧ s.configs.lookup name = none := by
  unfold State.readConfigs at h
  by_cases hp : name = "__proto__"
  · simp only [hp, if_true] at h
    cases hproto : s.configsProto <;> simp [hproto] at h
  · refine ⟨hp, ?_⟩
    simp only [hp, if_false] at h
    cases hl : s.configs.lookup name with
    | none => rfl
    | some e => simp [hl] at h

theorem loadConfig_fresh (env : Env) (s : State) (name : String) (config : Config)
    (events : List Event) (reqs : List Exchange)
    (hfile : s.storage.lookup name = some (.ok config))
    (hslot : s.readConfigs name = .missing)
    (hload : loadRequests env s.blobs name config.requests = (events, some reqs)) :
    loadConfig env s name =
      ({ s with
          configs := assign (assign s.configs name .placeholder) name
            (.loaded { general := config.general, requests := reqs.map (expand config.general) })
          matcher := assign s.matcher name (reqs.map (expand config.general))
          trace := s.trace ++ [.existsSync name] ++ [.readManifest name] ++ events ++
            [.emitNewSet name (reqs.map (expand config.general)),
             .matcherSetRequests name (reqs.map (expand config.general))] },
        .count (reqs.map (expand config.general)).length) := by
  have hp := (readConfigs_missing s name hslot).1
  have hslot' : (s.log [.existsSync name]).readConfigs name = .missing := hslot
  unfold loadConfig
  simp only [State.log] at hslot' ⊢
  simp [hfile, hslot', State.writeConfigs, hp, hload]

theorem loadConfig_cached (env : Env) (s : State) (name : String) (file : ManifestFile)
    (entry : CacheEntry) (config : Config)
    (hfile : s.storage.lookup name = some file)
    (hentry : s.readConfigs name = .entry entry)
    (hderef : s.deref entry = some config) :
    loadConfig env s name = (s.log [.existsSync name], .count config.requests.length) := by
  have hentry' : (s.log [.existsSync name]).readConfigs name = .entry entry := hentry
  have hderef' : (s.log [.existsSync name]).deref entry = some config := by
    cases entry <;> exact hderef
  unfold loadConfig
  simp only [State.log] at hentry' hderef' ⊢
  simp [hfile, hentry', State.requestsLength, hderef']

/-- C8 (amended). For a recordset whose manifest decodes and whose blobs are all in
storage, two calls of `loadConfig` in a row behave as follows. When the read
`this.configs[name]` finds nothing before the first call, both calls return the number
of exchanges of the manifest, and over the two calls the manifest is read exactly once
and `NEW_SET` is emitted exactly once. When the read finds a recordset object, both
calls return the number of exchanges of that object and the first call reads nothing.
In both cases the second call only tests that the manifest exists: apart from that test
it leaves the state and the trace as the first call left them. -/
theorem loadConfig_twice (env : Env) (s : State) (name : String) (config : Config)
    (hfile : s.storage.lookup name = some (.ok config))
    (hblobs : ∀ x ∈ config.requests, ∀ file, x.res.file = some file → file ≠ "" →
      (s.blobs.lookup (name, file)).isSome = true) :
    (s.readConfigs name = .missing →
      (loadConfig env s name).2 = .count config.requests.length ∧
      (loadConfig env (loadConfig env s name).1 name).2 = .count config.requests.length ∧
      (loadConfig env (loadConfig env s name).1 name).1 =
        (loadConfig env s name).1.log [.existsSync name] ∧
      (loadConfig env (loadConfig env s name).1 name).1.trace.count (.readManifest name) =
        s.trace.count (.readManifest name) + 1 ∧
      (loadConfig env (loadConfig env s name).1 name).1.trace.countP (Event.isNewSet name) =
        s.trace.countP (Event.isNewSet name) + 1) ∧
    (∀ entry cached, s.readConfigs name = .entry entry → s.deref entry = some cached →
      (loadConfig env s name).2 = .count cached.requests.length ∧
      (loadConfig env (loadConfig env s name).1 name).2 = .count cached.requests.length ∧
      (loadConfig env s name).1 = s.log [.existsSync name] ∧
      (loadConfig env (loadConfig env s name).1 name).1 =
        (loadConfig env s name).1.log [.existsSync name]) := by
  constructor
  · intro hslot
    obtain ⟨hp, _⟩ := readConfigs_missing s name hslot
    obtain ⟨events, reqs, hload, hlen, hevents⟩ :=
      loadRequests_ok env s.blobs name config.requests hblobs
    have h1 := loadConfig_fresh env s name config events reqs hfile hslot hload
    have h2 := loadConfig_cached env (loadConfig env s name).1 name (.ok config)
      (.loaded { general := config.general, requests := reqs.map (expand config.general) })
      { general := config.general, requests := reqs.map (expand config.general) }
      (by rw [h1]; exact hfile)
      (by rw [h1]; simp [State.readConfigs, hp, lookup_assign_self]) rfl
    have hcount : events.count (.readManifest name) = 0 := by
      rw [List.count_eq_zero]
      intro hmem
      obtain ⟨file, hfile'⟩ := hevents _ hmem
      exact Event.noConfusion hfile'
    have hcountP : events.countP (Event.isNewSet name) = 0 := by
      rw [List.countP_eq_zero]
      intro ev hmem
      obtain ⟨file, hfile'⟩ := hevents ev hmem
      subst hfile'
      simp [Event.isNewSet]
    refine ⟨?_, ?_, ?_, ?_, ?_⟩
    · rw [h1]; simp [hlen]
    · rw [h2]; simp [hlen]
    · rw [h2]
    · rw [h2, h1]
      simp [State.log, List.count_append, hcount, List.count_cons, List.count_nil]
    · rw [h2, h1]
      simp [State.log, List.countP_append, hcountP, List.countP_cons, Event.isNewSet]
  · intro entry cached hentry hderef
    have h1 := loadConfig_cached env s name (.ok config) entry cached hfile hentry hderef
    have h2 := loadConfig_cached env (s.log [.existsSync name]) name (.ok config) entry cached
      hfile hentry (by cases entry <;> exact hderef)
    rw [h1]
    exact ⟨rfl, by rw [h2], rfl, by rw [h2]⟩

theorem loadConfig_twice_witness :
    freshState.storage.lookup "R" =
      some (.ok { general := speedDefaults, requests := [storedExchange] }) ∧
    freshState.readConfigs "R" = .missing ∧
    (loadConfig sampleEnv freshState "R").2 = .count 1 ∧
    (loadConfig sampleEnv (loadConfig sampleEnv freshState "R").1 "R").2 = .count 1 ∧
    (loadConfig sampleEnv (loadConfig sampleEnv freshState "R").1 "R").1 =
      (loadConfig sampleEnv freshState "R").1.log [.existsSync "R"] ∧
    (loadConfig sampleEnv (loadConfig sampleEnv freshState "R").1 "R").1.trace.count
      (.readManifest "R") = 1 :=
  have h := (loadConfig_twice sampleEnv freshState "R"
    { general := speedDefaults, requests := [storedExchange] } (by decide) (by decide)).1
    (by decide)
  ⟨by decide, by decide, h.1, h.2.1, h.2.2.1, h.2.2.2.1⟩

/-- C8 (as stated) fails. The manifest of recordset `broken` decodes, but the blob it
refers to is not in storage: the first call of `loadConfig` raises and leaves the bare
`{}` in the cache, and the second call raises on it, so neither call returns a count.
The manifest of the recordset named `constructor` decodes too, but the read
`this.configs['constructor']` finds the inherited member, and the call raises without
reading the manifest. -/
theorem loadConfig_raises_on_missing_blob :
    oddState.storage.lookup "broken" =
      some (.ok { general := [], requests := [storedExchange] }) ∧
    (loadConfig sampleEnv oddState "broken").2 = .raised ∧
    (loadConfig sampleEnv oddState "broken").1.configs.lookup "broken" = some .placeholder ∧
    (loadConfig sampleEnv (loadConfig sampleEnv oddState "broken").1 "broken").2 = .raised ∧
    oddState.storage.lookup "constructor" =
      some (.ok { general := [], requests := [sampleExchange none] }) ∧
    (loadConfig sampleEnv oddState "constructor").2 = .raised ∧
    (loadConfig sampleEnv oddState "constructor").1.trace = [.existsSync "constructor"] := by
  decide

/-! ## Mode controller: claims C4, C5, C6, C7 -/

/-- C4 (the code departs from the claim). Handling `RECORD` for `a` and then for `b`
only binds the current recordset to `b` and asks the recorder to start twice: the mode
is left as it was, the recorder is never asked to stop, nothing is saved. From the
state the constructor builds, the mode is therefore still `null`, not `MODE_RECORD`. -/
theorem handleRecord_twice (s : State) (a b : String)
    (storage : List (String × ManifestFile)) (blobs : List ((String × String) × List Nat)) :
    handleRecord (handleRecord s a) b =
      { s with
        currentFile := some b
        trace := s.trace ++ [.recorderStart a, .ignoreQuery none, .recorderStart b,
          .ignoreQuery none] } ∧
    (handleRecord (handleRecord s a) b).currentMode = s.currentMode ∧
    (handleRecord (handleRecord s a) b).storage = s.storage ∧
    (handleRecord (handleRecord (initialState storage blobs) a) b).currentMode = none ∧
    (handleRecord (handleRecord (initialState storage blobs) a) b).trace =
      [.recorderStart a, .ignoreQuery none, .recorderStart b, .ignoreQuery none] := by
  simp [handleRecord, State.log, initialState]

/-- C5 (the code departs from the claim). The manifest of recordset `empty` exists and
decodes, with no exchange. `REPLAY-FILE empty` reads it and then raises the not-found
error and leaves the loader idle, without a call to the recorder's `replay`;
`REPLAY-FILE-OR-RECORD empty` starts a recording instead of a replay. -/
theorem replay_of_empty_recordset :
    freshState.storage.lookup "empty" = some (.ok { general := [], requests := [] }) ∧
    (handleRecordOrReplay sampleEnv freshState "REPLAY-FILE" "empty").2 =
      .raised (some "Config folder 'empty' not found!") ∧
    (handleRecordOrReplay sampleEnv freshState "REPLAY-FILE" "empty").1.currentFile = none ∧
    (handleRecordOrReplay sampleEnv freshState "REPLAY-FILE" "empty").1.currentMode = none ∧
    (handleRecordOrReplay sampleEnv freshState "REPLAY-FILE" "empty").1.trace =
      [.existsSync "empty", .readManifest "empty", .emitNewSet "empty" [],
        .matcherSetRequests "empty" []] ∧
    (handleRecordOrReplay sampleEnv freshState "REPLAY-FILE-OR-RECORD" "empty").2 = .returned ∧
    (handleRecordOrReplay sampleEnv freshState "REPLAY-FILE-OR-RECORD" "empty").1.currentMode =
      some MODE_RECORD ∧
    (handleRecordOrReplay sampleEnv freshState "REPLAY-FILE-OR-RECORD" "empty").1.trace =
      [.existsSync "empty", .readManifest "empty", .emitNewSet "empty" [],
        .matcherSetRequests "empty" [], .recorderStart "empty",
        .ignoreQuery (some "Beginning recording of recordset 'empty'")] := by
  decide

/-- C6 (amended). When the loader is replaying a recordset, handling `RECORD-END` asks
the recorder to stop that recordset and acknowledges the command, and does nothing
else: nothing is saved, and the loader stays in replay mode bound to the same
recordset. -/
theorem handleRecordEnd_replaying (env : Env) (s : State) (name : String)
    (hfile : s.currentFile = some name) (hmode : s.currentMode = some MODE_REPLAY) :
    handleRecordEnd env s = s.log [.recorderStop name, .ignoreQuery none] ∧
    (handleRecordEnd env s).currentMode = some MODE_REPLAY ∧
    (handleRecordEnd env s).currentFile = some name ∧
    (handleRecordEnd env s).storage = s.storage ∧
    (handleRecordEnd env s).blobs = s.blobs := by
  have h : handleRecordEnd env s = s.log [.recorderStop name, .ignoreQuery none] := by
    simp [handleRecordEnd, State.log, hfile, hmode, MODE_REPLAY, MODE_RECORD]
  rw [h]
  simp [State.log, hfile, hmode]

theorem handleRecordEnd_replaying_witness :
    replayingState.currentFile = some "R" ∧ replayingState.currentMode = some MODE_REPLAY ∧
    handleRecordEnd sampleEnv replayingState =
      replayingState.log [.recorderStop "R", .ignoreQuery none] :=
  ⟨by decide, by decide,
    (handleRecordEnd_replaying sampleEnv replayingState "R" (by decide) (by decide)).1⟩

/-- C6 (as stated) fails: in the state reached by `REPLAY-FILE R`, which is replaying
`R`, handling `RECORD-END` does not leave the loader idle; the mode is still
`MODE_REPLAY` and the current recordset is still `R`. -/
theorem handleRecordEnd_replaying_not_idle :
    replayingState.currentFile = some "R" ∧ replayingState.currentMode = some MODE_REPLAY ∧
    (handleRecordEnd sampleEnv replayingState).currentMode = some MODE_REPLAY ∧
    (handleRecordEnd sampleEnv replayingState).currentFile = some "R" ∧
    ¬ ((handleRecordEnd sampleEnv replayingState).currentMode = none ∧
        (handleRecordEnd sampleEnv replayingState).currentFile = none) := by
  decide

/-- C7 (the code departs from the claim). After recordset `A` was recorded with one
exchange and saved, `REPLAY-FILE-OR-RECORD B` finds no manifest for `B` and falls back
to recording; the cache slot it creates for `B` is the shared default object, whose
exchange list is the one saved for `A`, not the empty list. -/
theorem record_fallback_entry_not_empty :
    recordAThenB.storage.lookup "B" = none ∧
    recordAThenB.currentFile = some "B" ∧
    recordAThenB.currentMode = some MODE_RECORD ∧
    recordAThenB.configs.lookup "B" = some .defaultRef ∧
    (recordAThenB.configs.lookup "B").bind recordAThenB.deref =
      some { general := [],
             requests := [{ req := (sampleExchange none).req
                            res := { (sampleExchange none).res with
                                     body := none, file := some "104-105-.html" }
                            general := none }] } := by
  decide

/-- Companion of C5 for a recordset with at least one exchange: when the loader is not
recording, the read `this.configs[name]` finds nothing, the manifest decodes and its
blobs are in storage, `REPLAY-FILE` and `REPLAY-FILE-OR-RECORD` load it, ask the
recorder to replay it, switch to replay mode bound to it and report the number of
exchanges. -/
theorem handleRecordOrReplay_loaded (env : Env) (s : State) (command name : String)
    (config : Config)
    (hfile : s.storage.lookup name = some (.ok config))
    (hslot : s.readConfigs name = .missing)
    (hblobs : ∀ x ∈ config.requests, ∀ file, x.res.file = some file → file ≠ "" →
      (s.blobs.lookup (name, file)).isSome = true)
    (hmode : s.currentMode ≠ some MODE_RECORD)
    (hn : config.requests ≠ []) :
    (handleRecordOrReplay env s command name).2 = .returned ∧
    (handleRecordOrReplay env s command name).1.currentMode = some MODE_REPLAY ∧
    (handleRecordOrReplay env s command name).1.currentFile = some name ∧
    (handleRecordOrReplay env s command name).1.trace =
      (loadConfig env { s with currentFile := some name } name).1.trace ++
        [.recorderReplay name,
         .ignoreQuery (some ("Loaded " ++ toString config.requests.length ++
           " requests of recordset '" ++ name ++ "'"))] := by
  obtain ⟨hp, _⟩ := readConfigs_missing s name hslot
  obtain ⟨events, reqs, hload, hlen, _⟩ :=
    loadRequests_ok env s.blobs name config.requests hblobs
  have h1 := loadConfig_fresh env { s with currentFile := some name } name config events reqs
    hfile hslot hload
  have hpre : (match s.currentFile with
      | some current =>
        if s.currentMode = some MODE_RECORD then
          saveConfig env (s.log [.recorderStop current]) current
        else s
      | none => s) = s := by
    cases s.currentFile <;> simp [hmode]
  have hpos : reqs.length ≠ 0 := by
    rw [hlen]
    exact fun h => hn (List.length_eq_zero.mp h)
  unfold handleRecordOrReplay
  simp only [hpre]
  rw [h1]
  simp [LoadResult.truthy, LoadResult.text, hpos, State.log, State.deref, State.readConfigs,
    State.requestsLength, hp, lookup_assign_self, hlen, hn]

end ConfigLoader
